/-
Verification of the Acorn development agent (AIxMath/acorn-generator).

This file shallowly embeds the claim-relevant parts of the Python sources:
  * src/agent/file_ops.py   (extract_next_task, update_todo_mark_complete,
                             load_acorn_context, apply_implementation)
  * src/agent/llm_interface.py (generate_implementation: fenced-JSON
                             extraction and JSON parsing of the backend reply)
  * src/agent/log_utils.py  (create_log_entry, log_attempt, save_agent_log)
  * src/agent/agent.py      (run_single_task retry pipeline)
  * src/agent/verification.py / git_ops.py (modelled as oracles: the verifier
                             is a pass/fail result per attempt, commit a bool)

Strings are modelled as `List Char` (`Str`).  Python regular expressions are
modelled by direct backtracking scanners that implement exactly the patterns
appearing in the source.  `json.loads` is modelled by a recursive-descent
JSON parser.  Filesystem and subprocess effects are modelled by an event
trace (generation, verification, rollback, commit, log persistence).
-/
import Mathlib

set_option maxHeartbeats 1000000
set_option maxRecDepth 4000

namespace AcornAgent

/-- Strings of the Python program, modelled as lists of characters. -/
abbrev Str := List Char

/-- Characters written via their code points to keep source literals plain. -/
def lbrace : Char := Char.ofNat 123

def rbrace : Char := Char.ofNat 125

def dquote : Char := Char.ofNat 34

def bslash : Char := Char.ofNat 92

def btick : Char := Char.ofNat 96

/-- Python's regex class `\s` over ASCII: space, tab, newline, CR, VT, FF. -/
def isSpace (c : Char) : Bool :=
  c = ' ' || c = '\t' || c = '\n' || c = '\r' || c = '\x0b' || c = '\x0c'

/-- Length of the maximal run of `\s` characters at the front. -/
def wsRun : Str → Nat
  | [] => 0
  | c :: rest => if isSpace c then wsRun rest + 1 else 0

/-- Whether the literal `lit` occurs (as a contiguous substring) in `s`. -/
def litOccurs (lit : Str) : Str → Bool
  | [] => false
  | s@(_ :: rest) => lit.isPrefixOf s || litOccurs lit rest

/-- `re.search` for a pattern that is a literal followed by a deterministic
tail: try each start position left to right; at a position where the literal
matches, run `tailFn` on the remainder, and fall through to later positions
when the tail fails (regex backtracking over start positions). -/
def scanFor (lit : Str) (tailFn : Str → Option Str) : Str → Option Str
  | [] => none
  | s@(_ :: rest) =>
    match (if lit.isPrefixOf s then tailFn (s.drop lit.length) else none) with
    | some g => some g
    | none => scanFor lit tailFn rest

/-- The group and tail `(.+?)(?:\n|$)` tried at one fixed amount of consumed
whitespace: fails on end of input or a newline (`.` does not match `\n`),
otherwise the lazy group extends exactly to the next newline or the end. -/
def groupAt (t : Str) : Option Str :=
  match t with
  | [] => none
  | c :: cs => if c = '\n' then none else some ((c :: cs).takeWhile (fun x => x != '\n'))

/-- Backtracking `\s*(.+?)(?:\n|$)`: greedy `\s*` first consumes `k` (the
whole whitespace run), retrying with less whitespace when the tail fails. -/
def wsTailGroup (rest : Str) : Nat → Option Str
  | 0 => groupAt rest
  | k + 1 =>
    match groupAt (rest.drop (k + 1)) with
    | some g => some g
    | none => wsTailGroup rest k

/-- The shared tail `\s*(.+?)(?:\n|$)` of the two task-extraction patterns. -/
def reTail (rest : Str) : Option Str := wsTailGroup rest (wsRun rest)

/-- Backtracking `\s*LIT`: greedy `\s*` consumes `k` characters of the
whitespace run, backing off until the literal matches; returns the amount of
whitespace consumed. -/
def wsLitK (lit rest : Str) : Nat → Option Nat
  | 0 => if lit.isPrefixOf rest then some 0 else none
  | k + 1 => if lit.isPrefixOf (rest.drop (k + 1)) then some (k + 1) else wsLitK lit rest k

/-- Python `str.strip()`: drop whitespace from both ends. -/
def pyStrip (s : Str) : Str :=
  ((s.dropWhile isSpace).reverse.dropWhile isSpace).reverse

/-- The literal part of `file_ops.py`'s pattern `\*\*NEXT STEP\*\*:\s*(.+?)(?:\n|$)`. -/
def nextStepLit : Str := "**NEXT STEP**:".toList

/-- The literal part of `file_ops.py`'s pattern `- \[ \]\s*(.+?)(?:\n|$)`. -/
def checkboxLit : Str := "- [ ]".toList

/-- A task returned by `extract_next_task`: its stripped description and
whether it came from the `**NEXT STEP**` pattern (`type = next_step`) or from
the first unchecked checkbox (`type = unchecked`). -/
structure ExtractedTask where
  description : Str
  isNextStep : Bool
  deriving DecidableEq

/-- `file_ops.extract_next_task`: search for the NEXT STEP pattern first,
then fall back to the first unchecked `- [ ]` item; descriptions stripped. -/
def extractNextTask (content : Str) : Option ExtractedTask :=
  match scanFor nextStepLit reTail content with
  | some g => some ⟨pyStrip g, true⟩
  | none =>
    match scanFor checkboxLit reTail content with
    | some g => some ⟨pyStrip g, false⟩
    | none => none

/-- Match length of `update_todo_mark_complete`'s first pattern
`- \[ \]\s*\*\*NEXT STEP\*\*:\s*{re.escape(desc)}` at the current position. -/
def p1MatchLen (desc : Str) (s : Str) : Option Nat :=
  if checkboxLit.isPrefixOf s then
    match wsLitK nextStepLit (s.drop 5) (wsRun (s.drop 5)) with
    | some k1 =>
      match wsLitK desc ((s.drop 5).drop (k1 + 14)) (wsRun ((s.drop 5).drop (k1 + 14))) with
      | some k2 => some (5 + k1 + 14 + k2 + desc.length)
      | none => none
    | none => none
  else none

/-- Match length of `update_todo_mark_complete`'s second pattern
`- \[ \]\s*{re.escape(desc)}` at the current position. -/
def p2MatchLen (desc : Str) (s : Str) : Option Nat :=
  if checkboxLit.isPrefixOf s then
    match wsLitK desc (s.drop 5) (wsRun (s.drop 5)) with
    | some k => some (5 + k + desc.length)
    | none => none
  else none

/-- `re.search(pattern, content) is not None` for a pattern given by its
position matcher. -/
def anyMatch (m : Str → Option Nat) : Str → Bool
  | [] => false
  | s@(_ :: rest) => (m s).isSome || anyMatch m rest

/-- `re.sub`: replace every non-overlapping match, scanning left to right.
The fuel argument (instantiated with `length + 1`) only serves termination;
both patterns of `update_todo_mark_complete` consume at least five characters
per match, so the fuel is never exhausted on the inputs reasoned about. -/
def subAll (m : Str → Option Nat) (repl : Str) : Nat → Str → Str
  | _, [] => []
  | 0, s => s
  | fuel + 1, s@(c :: rest) =>
    match m s with
    | some n => repl ++ subAll m repl fuel (s.drop n)
    | none => c :: subAll m repl fuel rest

/-- `file_ops.update_todo_mark_complete`: try the NEXT STEP checkbox pattern,
then the plain checkbox pattern; the first pattern that occurs is substituted
everywhere (and the loop breaks).  The Python replacement text is
`'- [x] ~~NEXT STEP~~: ' + desc` resp. `'- [x] ' + desc`; it is modelled as a
literal (Python would additionally expand backslash escapes in `desc`, so
theorems below assume the description contains no backslash). -/
def updateTodoMarkComplete (content desc : Str) : Str :=
  if anyMatch (p1MatchLen desc) content then
    subAll (p1MatchLen desc) ("- [x] ~~NEXT STEP~~: ".toList ++ desc) (content.length + 1) content
  else if anyMatch (p2MatchLen desc) content then
    subAll (p2MatchLen desc) ("- [x] ".toList ++ desc) (content.length + 1) content
  else content

/-! ## Generator client (`llm_interface.generate_implementation`) -/

/-- The literal `json` fence opener of the extraction regex, three backticks
followed by `json`. -/
def fenceJsonLit : Str := [btick, btick, btick, 'j', 's', 'o', 'n']

/-- Three backticks, the fence closer of the extraction regex. -/
def fenceLit : Str := [btick, btick, btick]

/-- Whether `\s*` followed by a closing fence matches here (the fence opener
and `\{` are non-whitespace, so greedy `\s*` backtracking degenerates to
skipping the maximal whitespace run). -/
def fenceAfter (rest : Str) : Bool := fenceLit.isPrefixOf (rest.dropWhile isSpace)

/-- The lazy body `.*?\}` of `llm_interface.py`'s extraction regex (with
`re.DOTALL`, `.` matches every character): extend the body one character at a
time until a closing brace followed by `\s*` and a fence is found. -/
def tryCloseBrace (acc : Str) : Str → Option Str
  | [] => none
  | c :: rest =>
    if c = rbrace then
      if fenceAfter rest then some ((c :: acc).reverse)
      else tryCloseBrace (c :: acc) rest
    else tryCloseBrace (c :: acc) rest

/-- The tail `\s*(\{.*?\})\s*` + fence of the extraction regex, after the
fence opener has matched. -/
def fenceTail (rest : Str) : Option Str :=
  match rest.dropWhile isSpace with
  | c :: cs => if c = lbrace then tryCloseBrace [lbrace] cs else none
  | [] => none

/-- The fenced-JSON extraction of `generate_implementation`:
`re.search(r'(fence)json\s*(\{.*?\})\s*(fence)', response, re.DOTALL)`; when
the regex matches, `response` is replaced by its first group. -/
def extractResponse (resp : Str) : Str :=
  match scanFor fenceJsonLit fenceTail resp with
  | some g => g
  | none => resp

/-! ### A model of `json.loads` -/

/-- JSON values.  Number literals are kept as their lexemes: no claim depends
on numeric decoding, only on parse success/failure and on string fields. -/
inductive Json where
  | null
  | bool (b : Bool)
  | num (lit : Str)
  | str (s : Str)
  | arr (items : List Json)
  | obj (fields : List (Str × Json))

/-- JSON structural whitespace (stricter than regex `\s`). -/
def isJsonWs (c : Char) : Bool :=
  c = ' ' || c = '\t' || c = '\n' || c = '\r'

/-- Hexadecimal digit value, by code point: digits, then the lowercase and
uppercase letter ranges. -/
def hexVal (c : Char) : Option Nat :=
  let n := c.toNat
  if 48 ≤ n ∧ n ≤ 57 then some (n - 48)
  else if 97 ≤ n ∧ n ≤ 102 then some (n - 87)
  else if 65 ≤ n ∧ n ≤ 70 then some (n - 55)
  else none

/-- JSON string body after the opening quote: returns the decoded content and
the remaining input after the closing quote.  Escapes follow `json.loads`
(`\u` surrogate-pair recombination is not modelled; no claim involves it).
Raw control characters are rejected as in the default strict mode. -/
def parseStringBody : Nat → Str → Option (Str × Str)
  | 0, _ => none
  | fuel + 1, s =>
    match s with
    | [] => none
    | c :: rest =>
      if c = dquote then some ([], rest)
      else if c = bslash then
        match rest with
        | [] => none
        | e :: rest2 =>
          let dec : Option (Char × Str) :=
            if e = dquote then some (dquote, rest2)
            else if e = bslash then some (bslash, rest2)
            else if e = '/' then some ('/', rest2)
            else if e = 'b' then some (Char.ofNat 8, rest2)
            else if e = 'f' then some (Char.ofNat 12, rest2)
            else if e = 'n' then some ('\n', rest2)
            else if e = 'r' then some ('\r', rest2)
            else if e = 't' then some ('\t', rest2)
            else if e = 'u' then
              match rest2 with
              | h1 :: h2 :: h3 :: h4 :: rest3 =>
                match hexVal h1, hexVal h2, hexVal h3, hexVal h4 with
                | some a, some b, some c2, some d =>
                  some (Char.ofNat (4096 * a + 256 * b + 16 * c2 + d), rest3)
                | _, _, _, _ => none
              | _ => none
            else none
          match dec with
          | some (ch, r) =>
            match parseStringBody fuel r with
            | some (cs, r2) => some (ch :: cs, r2)
            | none => none
          | none => none
      else if c.toNat < 32 then none
      else
        match parseStringBody fuel rest with
        | some (cs, r2) => some (c :: cs, r2)
        | none => none

/-- One or more digits (lexeme, remainder). -/
def spanDigits (s : Str) : Str × Str :=
  (s.takeWhile Char.isDigit, s.dropWhile Char.isDigit)

/-- JSON integer part: `0` alone or a nonzero digit followed by digits. -/
def parseIntPart (s : Str) : Option (Str × Str) :=
  match s with
  | [] => none
  | c :: rest =>
    if c = '0' then some ([c], rest)
    else if c.isDigit then
      some (c :: (spanDigits rest).1, (spanDigits rest).2)
    else none

/-- Optional JSON fraction part. -/
def parseFracPart (s : Str) : Option (Str × Str) :=
  match s with
  | [] => some ([], [])
  | c :: rest =>
    if c = '.' then
      match rest with
      | [] => none
      | d :: _ =>
        if d.isDigit then some ('.' :: (spanDigits rest).1, (spanDigits rest).2)
        else none
    else some ([], c :: rest)

/-- Optional JSON exponent part. -/
def parseExpPart (s : Str) : Option (Str × Str) :=
  match s with
  | [] => some ([], [])
  | c :: rest =>
    if c = 'e' || c = 'E' then
      match rest with
      | [] => none
      | g :: rest2 =>
        if g = '+' || g = '-' then
          match rest2 with
          | [] => none
          | d :: _ =>
            if d.isDigit then some (c :: g :: (spanDigits rest2).1, (spanDigits rest2).2)
            else none
        else if g.isDigit then some (c :: (spanDigits rest).1, (spanDigits rest).2)
        else none
    else some ([], c :: rest)

/-- A JSON number (lexeme, remainder): optional minus sign, integer part,
optional fraction and exponent. -/
def parseNumber (s : Str) : Option (Str × Str) :=
  let core : Str → Option (Str × Str) := fun t =>
    match parseIntPart t with
    | none => none
    | some (ip, r1) =>
      match parseFracPart r1 with
      | none => none
      | some (fp, r2) =>
        match parseExpPart r2 with
        | none => none
        | some (ep, r3) => some (ip ++ fp ++ ep, r3)
  match s with
  | c :: rest =>
    if c = '-' then
      match core rest with
      | some (lex, r) => some ('-' :: lex, r)
      | none => none
    else core s
  | [] => none

mutual

/-- `json.loads`'s value scanner: leading whitespace, then an object, array,
string, literal (`true`/`false`/`null` and the CPython extensions `NaN`,
`Infinity`, `-Infinity`) or number.  Returns the value and the remainder. -/
def parseVal : Nat → Str → Option (Json × Str)
  | 0, _ => none
  | fuel + 1, s0 =>
    match s0.dropWhile isJsonWs with
    | [] => none
    | c :: rest =>
      if c = lbrace then
        match rest.dropWhile isJsonWs with
        | [] => none
        | d :: r2 =>
          if d = rbrace then some (.obj [], r2)
          else
            match parseObjFields fuel (rest.dropWhile isJsonWs) with
            | some (fs, r3) => some (.obj fs, r3)
            | none => none
      else if c = '[' then
        match rest.dropWhile isJsonWs with
        | [] => none
        | d :: r2 =>
          if d = ']' then some (.arr [], r2)
          else
            match parseArrItems fuel (rest.dropWhile isJsonWs) with
            | some (vs, r3) => some (.arr vs, r3)
            | none => none
      else if c = dquote then
        match parseStringBody (rest.length + 1) rest with
        | some (cs, r2) => some (.str cs, r2)
        | none => none
      else if "true".toList.isPrefixOf (c :: rest) then some (.bool true, (c :: rest).drop 4)
      else if "false".toList.isPrefixOf (c :: rest) then some (.bool false, (c :: rest).drop 5)
      else if "null".toList.isPrefixOf (c :: rest) then some (.null, (c :: rest).drop 4)
      else if "NaN".toList.isPrefixOf (c :: rest) then some (.num "NaN".toList, (c :: rest).drop 3)
      else if "Infinity".toList.isPrefixOf (c :: rest) then
        some (.num "Infinity".toList, (c :: rest).drop 8)
      else if "-Infinity".toList.isPrefixOf (c :: rest) then
        some (.num "-Infinity".toList, (c :: rest).drop 9)
      else
        match parseNumber (c :: rest) with
        | some (lex, r) => some (.num lex, r)
        | none => none

/-- Comma-separated array items up to the closing bracket. -/
def parseArrItems : Nat → Str → Option (List Json × Str)
  | 0, _ => none
  | fuel + 1, s =>
    match parseVal fuel s with
    | none => none
    | some (v, r1) =>
      match r1.dropWhile isJsonWs with
      | [] => none
      | c :: r3 =>
        if c = ',' then
          match parseArrItems fuel r3 with
          | some (vs, r4) => some (v :: vs, r4)
          | none => none
        else if c = ']' then some ([v], r3)
        else none

/-- Comma-separated `"key": value` object members up to the closing brace. -/
def parseObjFields : Nat → Str → Option (List (Str × Json) × Str)
  | 0, _ => none
  | fuel + 1, s =>
    match s.dropWhile isJsonWs with
    | [] => none
    | c :: r1 =>
      if c = dquote then
        match parseStringBody (r1.length + 1) r1 with
        | none => none
        | some (key, r2) =>
          match r2.dropWhile isJsonWs with
          | [] => none
          | d :: r4 =>
            if d = ':' then
              match parseVal fuel r4 with
              | none => none
              | some (v, r5) =>
                match r5.dropWhile isJsonWs with
                | [] => none
                | e :: r7 =>
                  if e = ',' then
                    match parseObjFields fuel r7 with
                    | some (fs, r8) => some ((key, v) :: fs, r8)
                    | none => none
                  else if e = rbrace then some ([(key, v)], r7)
                  else none
            else none
      else none

end

/-- `json.loads`: parse one value and require only whitespace afterwards. -/
def parseJson (s : Str) : Option Json :=
  match parseVal (s.length + 1) s with
  | some (v, r) => if r.dropWhile isJsonWs = [] then some v else none
  | none => none

/-! ### Change proposals -/

/-- One entry of the proposal's `files` array, with each dictionary key
optional as in the parsed JSON. -/
structure FileSpec where
  path : Option Str
  action : Option Str
  content : Option Str
  explanation : Option Str
  deriving DecidableEq

/-- A parsed backend reply as the pipeline consumes it: the dictionary keys
that `agent.py`, `file_ops.py` and `log_utils.py` read, each optional.
`raw_response` is present exactly on the parse-failure fallback (or when the
backend's JSON itself carries that key as a string). -/
structure Impl where
  analysis : Option Str
  files : Option (List FileSpec)
  commit_message : Option Str
  verification_notes : Option Str
  raw_response : Option Str
  deriving DecidableEq

/-- Python `dict` lookup for an object built by `json.loads`: duplicate keys
keep the last occurrence. -/
def objLookup (fields : List (Str × Json)) (key : Str) : Option Json :=
  match fields.reverse.find? (fun kv => kv.1 == key) with
  | some kv => some kv.2
  | none => none

/-- Extract a string value. -/
def asStr : Json → Option Str
  | .str s => some s
  | _ => none

/-- One `files` entry read off a JSON value (string-valued keys; the pipeline
reads these fields generically with `.get`). -/
def fileSpecOfJson : Json → FileSpec
  | .obj fs =>
    { path := (objLookup fs "path".toList).bind asStr
      action := (objLookup fs "action".toList).bind asStr
      content := (objLookup fs "content".toList).bind asStr
      explanation := (objLookup fs "explanation".toList).bind asStr }
  | _ => { path := none, action := none, content := none, explanation := none }

/-- The pipeline's view of a successfully parsed JSON object.  (A non-object
top-level value makes the Python pipeline crash on `.get`; no claim exercises
that case, and it is mapped to the all-absent record.) -/
def implOfJson : Json → Impl
  | .obj fs =>
    { analysis := (objLookup fs "analysis".toList).bind asStr
      files := (objLookup fs "files".toList).bind (fun j =>
        match j with
        | .arr items => some (items.map fileSpecOfJson)
        | _ => none)
      commit_message := (objLookup fs "commit_message".toList).bind asStr
      verification_notes := (objLookup fs "verification_notes".toList).bind asStr
      raw_response := (objLookup fs "raw_response".toList).bind asStr }
  | _ =>
    { analysis := none, files := none, commit_message := none
      verification_notes := none, raw_response := none }

/-- The structured error object `generate_implementation` returns when the
(possibly extracted) response is not valid JSON: the raw text is preserved
under `raw_response` and never raised as an exception. -/
def fallbackImpl (raw : Str) : Impl :=
  { analysis := some "Failed to parse LLM response as JSON".toList
    files := some []
    commit_message := some "Failed implementation attempt".toList
    verification_notes := some "Manual review needed".toList
    raw_response := some raw }

/-- Parse outcome of `generate_implementation` on one backend response text
(after fenced-block extraction): either the parsed JSON value, or the
structured fallback carrying the text that failed to parse. -/
inductive GenResult where
  | parsed (j : Json)
  | fallback (raw : Str)

/-- The parse outcome of `generate_implementation` on a response text. -/
def genResult (resp : Str) : GenResult :=
  match parseJson (extractResponse resp) with
  | some j => .parsed j
  | none => .fallback (extractResponse resp)

/-- `llm_interface.generate_implementation`, restricted to its response
processing (the prompt assembly and backend call are external): extract a
fenced JSON block if present, parse, and fall back to the structured error
dictionary on parse failure. -/
def generateImplementation (resp : Str) : Impl :=
  match parseJson (extractResponse resp) with
  | some j => implOfJson j
  | none => fallbackImpl (extractResponse resp)

/-! ## Change applier (`file_ops.apply_implementation`) -/

/-- `file_spec.get('action', 'modify')`. -/
def getActionD (fs : FileSpec) : Str := fs.action.getD "modify".toList

/-- The loop body of `apply_implementation` over the `files` entries, with
file writes abstracted away and only the returned `modified_files` list (or
the uncaught exception) kept.  `file_spec['path']` is read unconditionally
and raises when absent; a `create` entry reads `file_spec['content']`
unconditionally and raises when absent; a `modify` entry without `content`
is skipped with a warning; any other action falls through both branches. -/
def applyFiles : List FileSpec → Except Str (List Str)
  | [] => .ok []
  | fs :: rest =>
    match fs.path with
    | none => .error "KeyError: path".toList
    | some p =>
      if getActionD fs = "create".toList then
        match fs.content with
        | none => .error "KeyError: content".toList
        | some _ =>
          match applyFiles rest with
          | .ok ms => .ok (p :: ms)
          | .error e => .error e
      else if getActionD fs = "modify".toList then
        match fs.content with
        | some _ =>
          match applyFiles rest with
          | .ok ms => .ok (p :: ms)
          | .error e => .error e
        | none => applyFiles rest
      else applyFiles rest

/-- `file_ops.apply_implementation` on `implementation.get('files', [])`. -/
def applyImplementation (impl : Impl) : Except Str (List Str) :=
  applyFiles (impl.files.getD [])

/-! ## Attempt logger (`log_utils`) -/

/-- One entry of the per-attempt `files` detail of `log_attempt`. -/
structure FileData where
  path : Str
  action : Str
  content : Str
  explanation : Str
  deriving DecidableEq

/-- `log_attempt`'s per-file record with its `.get` defaults. -/
def fileDataOf (fs : FileSpec) : FileData :=
  { path := fs.path.getD "unknown".toList
    action := fs.action.getD "unknown".toList
    content := fs.content.getD []
    explanation := fs.explanation.getD "No explanation provided".toList }

/-- One record appended by `log_utils.log_attempt`. -/
structure AttemptData where
  attempt : Nat
  analysis : Str
  files_count : Nat
  files : List FileData
  commit_message : Str
  verification_notes : Str
  error_context : Option Str
  has_raw_response : Bool
  raw_response : Str
  deriving DecidableEq

/-- `log_utils.log_attempt`: the record built for one generation attempt. -/
def logAttempt (impl : Impl) (attemptNo : Nat) (ec : Option Str) : AttemptData :=
  { attempt := attemptNo
    analysis := impl.analysis.getD "No analysis".toList
    files_count := (impl.files.getD []).length
    files := (impl.files.getD []).map fileDataOf
    commit_message := impl.commit_message.getD "No commit message".toList
    verification_notes := impl.verification_notes.getD []
    error_context := ec
    has_raw_response := impl.raw_response.isSome
    raw_response := impl.raw_response.getD [] }

/-- The claim-relevant fields of the TaskLog dictionary built by
`create_log_entry` and mutated by `run_single_task` (timestamps, the task
text and the mode tag carry no control flow and are omitted). -/
structure TaskLog where
  attempts : List AttemptData
  final_status : Option Str
  files_modified : List Str
  error_messages : List Str
  deriving DecidableEq

/-- `create_log_entry`: the fresh TaskLog. -/
def initLog : TaskLog :=
  { attempts := [], final_status := none, files_modified := [], error_messages := [] }

/-! ## Retry pipeline (`agent.run_single_task`) -/

/-- Externally observable actions of one task run, in order: a generation
request (with the `error_context` passed to `generate_implementation`), a
verifier invocation (`verify_acorn_code`) with its outcome, a working-tree
rollback (`git checkout .`), a commit/push (`git_add_commit_push`) with its
outcome, and a `save_agent_log` persistence. -/
inductive Event where
  | generate (attemptNo : Nat) (ec : Option Str)
  | verifyCall (attemptNo : Nat) (ok : Bool)
  | rollback
  | commitCall (ok : Bool)
  | save
  deriving DecidableEq

/-- How `run_single_task` ends: a normal boolean return, or an uncaught
exception propagating out of `apply_implementation`. -/
inductive RunOutcome where
  | finished (ok : Bool)
  | crashed (msg : Str)
  deriving DecidableEq

/-- `MAX_FIX_ATTEMPTS` of `agent.py`. -/
def MAX_FIX_ATTEMPTS : Nat := 3

/-- The corrective instruction set as `error_context` after a parse failure
when attempts remain. -/
def jsonErrorInstruction : Str :=
  "LLM response was not valid JSON. Please respond with valid JSON format.".toList

/-- The `error_context` built from a failed verification's diagnostics. -/
def verifyErrorContext (out : Str) : Str :=
  "Code verification failed with error:\n".toList ++ out ++ "\n\nPlease fix the errors.".toList

/-- The `for attempt in range(MAX_FIX_ATTEMPTS)` loop of `run_single_task`.
The external collaborators are oracles: `gen` gives the parsed proposal that
`generate_implementation` returns on a given attempt with a given
`error_context`; `verify` the verifier's (success, combined output) for the
attempt on which it runs; `commit` the commit/push outcome.  `fuel` is the
number of loop iterations left (`MAX_FIX_ATTEMPTS - attemptNo` at entry); on
natural loop exit the dead `failed_unknown` tail of the function runs.  The
result is the return value (or crash), the final TaskLog, and the trace. -/
def runLoop (gen : Nat → Option Str → Impl) (verify : Nat → Bool × Str) (commit : Nat → Bool)
    (n : Nat) : Nat → Nat → Option Str → TaskLog → List Event →
    RunOutcome × TaskLog × List Event
  | _, 0, _, log, evs =>
    (.finished false, { log with final_status := some "failed_unknown".toList }, evs ++ [.save])
  | attemptNo, fuel + 1, ec, log, evs =>
    if (gen attemptNo ec).raw_response.isSome then
      if attemptNo < n - 1 then
        runLoop gen verify commit n (attemptNo + 1) fuel (some jsonErrorInstruction)
          { log with attempts := log.attempts ++ [logAttempt (gen attemptNo ec) (attemptNo + 1) ec] }
          (evs ++ [.generate attemptNo ec])
      else
        (.finished false,
         { log with
             attempts := log.attempts ++ [logAttempt (gen attemptNo ec) (attemptNo + 1) ec]
             final_status := some "failed_json_parsing".toList
             error_messages := log.error_messages ++ ["Failed to parse LLM response as JSON".toList] },
         evs ++ [.generate attemptNo ec, .save])
    else
      match applyImplementation (gen attemptNo ec) with
      | .error m =>
        (.crashed m,
         { log with attempts := log.attempts ++ [logAttempt (gen attemptNo ec) (attemptNo + 1) ec] },
         evs ++ [.generate attemptNo ec])
      | .ok modified =>
        if modified = [] then
          if (gen attemptNo ec).files.getD [] = [] then
            (.finished true,
             { log with
                 attempts := log.attempts ++ [logAttempt (gen attemptNo ec) (attemptNo + 1) ec]
                 final_status := some "completed_no_changes".toList },
             evs ++ [.generate attemptNo ec, .save])
          else
            (.finished false,
             { log with
                 attempts := log.attempts ++ [logAttempt (gen attemptNo ec) (attemptNo + 1) ec]
                 final_status := some "failed_implementation_error".toList
                 error_messages := log.error_messages ++
                   ["No files were modified but implementation indicated changes were needed".toList] },
             evs ++ [.generate attemptNo ec, .save])
        else
          if (verify attemptNo).1 = false then
            if attemptNo < n - 1 then
              runLoop gen verify commit n (attemptNo + 1) fuel
                (some (verifyErrorContext (verify attemptNo).2))
                { log with
                    attempts := log.attempts ++ [logAttempt (gen attemptNo ec) (attemptNo + 1) ec]
                    files_modified := modified
                    error_messages := log.error_messages ++
                      ["Verification error: ".toList ++ (verify attemptNo).2] }
                (evs ++ [.generate attemptNo ec, .verifyCall attemptNo false, .rollback])
            else
              (.finished false,
               { log with
                   attempts := log.attempts ++ [logAttempt (gen attemptNo ec) (attemptNo + 1) ec]
                   files_modified := modified
                   final_status := some "failed_verification".toList
                   error_messages := log.error_messages ++
                     ["Verification error: ".toList ++ (verify attemptNo).2] },
               evs ++ [.generate attemptNo ec, .verifyCall attemptNo false, .rollback, .save])
          else
            if commit attemptNo then
              (.finished true,
               { log with
                   attempts := log.attempts ++ [logAttempt (gen attemptNo ec) (attemptNo + 1) ec]
                   files_modified := modified
                   final_status := some "completed_successfully".toList },
               evs ++ [.generate attemptNo ec, .verifyCall attemptNo true, .commitCall true, .save])
            else
              (.finished false,
               { log with
                   attempts := log.attempts ++ [logAttempt (gen attemptNo ec) (attemptNo + 1) ec]
                   files_modified := modified
                   final_status := some "failed_commit".toList
                   error_messages := log.error_messages ++ ["Git commit/push failed".toList] },
               evs ++ [.generate attemptNo ec, .verifyCall attemptNo true, .commitCall false, .save])

/-- `agent.run_single_task` with attempt bound `n` (the source fixes
`n = MAX_FIX_ATTEMPTS`): enter the loop at attempt 0 with no error context,
a fresh TaskLog, and an empty trace. -/
def runSingleTask (n : Nat) (gen : Nat → Option Str → Impl) (verify : Nat → Bool × Str)
    (commit : Nat → Bool) : RunOutcome × TaskLog × List Event :=
  runLoop gen verify commit n 0 n none initLog []

/-! ## Context assembler (`file_ops.load_acorn_context`) -/

/-- Presence and contents of the three files `load_acorn_context` reads. -/
structure ContextFiles where
  claudeMd : Option String
  todoMd : Option String
  contextFile : Option String

/-- Python `"\n".join(parts)`. -/
def joinNl : List String → String
  | [] => ""
  | [p] => p
  | p :: ps => p ++ "\n" ++ joinNl ps

/-- `file_ops.load_acorn_context`: headers and contents of CLAUDE.md and
TODO.md when present, then the context file — read in full (`f.read()`, the
20000-character truncation present in the source only as commented-out
code), joined with newlines. -/
def loadAcornContext (cf : ContextFiles) : String :=
  joinNl
    ((match cf.claudeMd with
      | some c => ["=== CLAUDE.md (Development Guidelines) ===", c]
      | none => []) ++
     (match cf.todoMd with
      | some t => ["\n=== TODO.md (Current Tasks) ===", t]
      | none => []) ++
     (match cf.contextFile with
      | some d => ["\n=== Acorn Documentation ===", d]
      | none => []))

/-! ## Trace statistics -/

/-- Whether an event is a generation request. -/
def isGenEv : Event → Bool
  | .generate _ _ => true
  | _ => false

/-- Whether an event is a `save_agent_log` persistence. -/
def isSaveEv : Event → Bool
  | .save => true
  | _ => false

/-- Number of generation attempts in a trace. -/
def countGen (evs : List Event) : Nat := evs.countP isGenEv

/-- Number of log persistences in a trace. -/
def countSave (evs : List Event) : Nat := evs.countP isSaveEv

/-- Loop invariant of the retry pipeline: each executed iteration contributes
exactly one generation event and one attempt record, the iteration count is
bounded by the fuel, and every normal return persists the log exactly once
more than the incoming trace, as the final action. -/
theorem runLoop_count (gen : Nat → Option Str → Impl) (verify : Nat → Bool × Str)
    (commit : Nat → Bool) (n : Nat) :
    ∀ (fuel attemptNo : Nat) (ec : Option Str) (log : TaskLog) (evs : List Event),
      ∃ k, k ≤ fuel ∧
        countGen (runLoop gen verify commit n attemptNo fuel ec log evs).2.2
          = countGen evs + k ∧
        (runLoop gen verify commit n attemptNo fuel ec log evs).2.1.attempts.length
          = log.attempts.length + k ∧
        ∀ b, (runLoop gen verify commit n attemptNo fuel ec log evs).1 = .finished b →
          countSave (runLoop gen verify commit n attemptNo fuel ec log evs).2.2
            = countSave evs + 1 ∧
          ∃ pre, (runLoop gen verify commit n attemptNo fuel ec log evs).2.2
            = pre ++ [Event.save] := by
  intro fuel
  induction fuel with
  | zero =>
    intro attemptNo ec log evs
    refine ⟨0, Nat.le_refl 0, ?_, ?_, ?_⟩
    · simp [runLoop, countGen, List.countP_append, List.countP_cons, isGenEv]
    · simp [runLoop]
    · intro b _
      constructor
      · simp [runLoop, countSave, List.countP_append, List.countP_cons, isSaveEv]
      · exact ⟨evs, by simp [runLoop]⟩
  | succ fuel ih =>
    intro attemptNo ec log evs
    by_cases hraw : (gen attemptNo ec).raw_response.isSome
    · by_cases hlt : attemptNo < n - 1
      · have hrec := ih (attemptNo + 1) (some jsonErrorInstruction)
          { log with attempts := log.attempts ++ [logAttempt (gen attemptNo ec) (attemptNo + 1) ec] }
          (evs ++ [.generate attemptNo ec])
        obtain ⟨k, hk, h1, h2, h3⟩ := hrec
        refine ⟨k + 1, by omega, ?_, ?_, ?_⟩
        · simp only [runLoop, hraw, if_true, hlt]
          rw [h1]
          simp [countGen, List.countP_append, List.countP_cons, isGenEv]
          omega
        · simp only [runLoop, hraw, if_true, hlt]
          rw [h2]
          simp
          omega
        · intro b hb
          simp only [runLoop, hraw, if_true, hlt] at hb ⊢
          obtain ⟨hs, pre, hpre⟩ := h3 b hb
          refine ⟨?_, pre, hpre⟩
          rw [hs]
          simp [countSave, List.countP_append, List.countP_cons, isSaveEv]
      · refine ⟨1, by omega, ?_, ?_, ?_⟩
        · simp [runLoop, hraw, hlt, countGen, List.countP_append, List.countP_cons, isGenEv]
        · simp [runLoop, hraw, hlt]
        · intro b _
          constructor
          · simp [runLoop, hraw, hlt, countSave, List.countP_append, List.countP_cons, isSaveEv]
          · exact ⟨evs ++ [.generate attemptNo ec], by simp [runLoop, hraw, hlt]⟩
    · cases happ : applyImplementation (gen attemptNo ec) with
      | error m =>
        refine ⟨1, by omega, ?_, ?_, ?_⟩
        · simp [runLoop, hraw, happ, countGen, List.countP_append, List.countP_cons, isGenEv]
        · simp [runLoop, hraw, happ]
        · intro b hb
          simp [runLoop, hraw, happ] at hb
      | ok mods =>
        by_cases hm : mods = []
        · refine ⟨1, by omega, ?_, ?_, ?_⟩
          · by_cases hf : (gen attemptNo ec).files.getD [] = [] <;>
              simp [runLoop, hraw, happ, hm, hf, countGen, List.countP_append,
                List.countP_cons, isGenEv]
          · by_cases hf : (gen attemptNo ec).files.getD [] = [] <;>
              simp [runLoop, hraw, happ, hm, hf]
          · intro b _
            constructor
            · by_cases hf : (gen attemptNo ec).files.getD [] = [] <;>
                simp [runLoop, hraw, happ, hm, hf, countSave, List.countP_append,
                  List.countP_cons, isSaveEv]
            · exact ⟨evs ++ [.generate attemptNo ec], by
                by_cases hf : (gen attemptNo ec).files.getD [] = [] <;>
                  simp [runLoop, hraw, happ, hm, hf]⟩
        · by_cases hv : (verify attemptNo).1 = false
          · by_cases hlt : attemptNo < n - 1
            · have hstep : runLoop gen verify commit n attemptNo (fuel + 1) ec log evs
                  = runLoop gen verify commit n (attemptNo + 1) fuel
                      (some (verifyErrorContext (verify attemptNo).2))
                      { log with
                          attempts := log.attempts ++
                            [logAttempt (gen attemptNo ec) (attemptNo + 1) ec]
                          files_modified := mods
                          error_messages := log.error_messages ++
                            ["Verification error: ".toList ++ (verify attemptNo).2] }
                      (evs ++ [.generate attemptNo ec, .verifyCall attemptNo false, .rollback]) := by
                simp [runLoop, hraw, happ, hm, hv, hlt]
              obtain ⟨k, hk, h1, h2, h3⟩ := ih (attemptNo + 1)
                (some (verifyErrorContext (verify attemptNo).2))
                { log with
                    attempts := log.attempts ++ [logAttempt (gen attemptNo ec) (attemptNo + 1) ec]
                    files_modified := mods
                    error_messages := log.error_messages ++
                      ["Verification error: ".toList ++ (verify attemptNo).2] }
                (evs ++ [.generate attemptNo ec, .verifyCall attemptNo false, .rollback])
              rw [hstep]
              refine ⟨k + 1, by omega, ?_, ?_, ?_⟩
              · rw [h1]
                simp [countGen, List.countP_append, List.countP_cons, isGenEv]
                omega
              · rw [h2]
                simp
                omega
              · intro b hb
                obtain ⟨hs, pre, hpre⟩ := h3 b hb
                refine ⟨?_, pre, hpre⟩
                rw [hs]
                simp [countSave, List.countP_append, List.countP_cons, isSaveEv]
            · refine ⟨1, by omega, ?_, ?_, ?_⟩
              · simp [runLoop, hraw, happ, hm, hv, hlt, countGen, List.countP_append,
                  List.countP_cons, isGenEv]
              · simp [runLoop, hraw, happ, hm, hv, hlt]
              · intro b _
                constructor
                · simp [runLoop, hraw, happ, hm, hv, hlt, countSave, List.countP_append,
                    List.countP_cons, isSaveEv]
                · exact ⟨evs ++ [.generate attemptNo ec, .verifyCall attemptNo false, .rollback],
                    by simp [runLoop, hraw, happ, hm, hv, hlt]⟩
          · by_cases hc : commit attemptNo
            · refine ⟨1, by omega, ?_, ?_, ?_⟩
              · simp [runLoop, hraw, happ, hm, hv, hc, countGen, List.countP_append,
                  List.countP_cons, isGenEv]
              · simp [runLoop, hraw, happ, hm, hv, hc]
              · intro b _
                constructor
                · simp [runLoop, hraw, happ, hm, hv, hc, countSave, List.countP_append,
                    List.countP_cons, isSaveEv]
                · exact ⟨evs ++ [.generate attemptNo ec,
                    .verifyCall attemptNo true, .commitCall true], by
                      simp [runLoop, hraw, happ, hm, hv, hc]⟩
            · refine ⟨1, by omega, ?_, ?_, ?_⟩
              · simp [runLoop, hraw, happ, hm, hv, hc, countGen, List.countP_append,
                  List.countP_cons, isGenEv]
              · simp [runLoop, hraw, happ, hm, hv, hc]
              · intro b _
                constructor
                · simp [runLoop, hraw, happ, hm, hv, hc, countSave, List.countP_append,
                    List.countP_cons, isSaveEv]
                · exact ⟨evs ++ [.generate attemptNo ec,
                    .verifyCall attemptNo true, .commitCall false], by
                      simp [runLoop, hraw, happ, hm, hv, hc]⟩

/-- C1: for every attempt bound `N ≥ 1` and every task run through
`run_single_task`, at most `N` generation attempts are performed, exactly one
attempt record is appended per generation (so the TaskLog's `attempts` length
equals the number of generations and is at most `N`), and on every normal
return the TaskLog is persisted via `save_agent_log` exactly once, as the
final action of the task. -/
theorem c1_attempt_bound (n : Nat) (hn : 1 ≤ n) (gen : Nat → Option Str → Impl)
    (verify : Nat → Bool × Str) (commit : Nat → Bool) :
    countGen (runSingleTask n gen verify commit).2.2 ≤ n ∧
    (runSingleTask n gen verify commit).2.1.attempts.length
      = countGen (runSingleTask n gen verify commit).2.2 ∧
    ∀ b, (runSingleTask n gen verify commit).1 = .finished b →
      countSave (runSingleTask n gen verify commit).2.2 = 1 ∧
      ∃ pre, (runSingleTask n gen verify commit).2.2 = pre ++ [Event.save] := by
  obtain ⟨k, hk, h1, h2, h3⟩ := runLoop_count gen verify commit n n 0 none initLog []
  have hG : countGen ([] : List Event) = 0 := rfl
  have hS : countSave ([] : List Event) = 0 := rfl
  refine ⟨?_, ?_, ?_⟩
  · unfold runSingleTask
    rw [h1, hG]
    omega
  · unfold runSingleTask
    rw [h1, h2, hG]
    simp [initLog]
  · intro b hb
    obtain ⟨hs, pre, hpre⟩ := h3 b hb
    rw [hS] at hs
    exact ⟨hs, pre, hpre⟩

/-- A proposal with an explicitly empty `files` array and no raw response,
used to instantiate witnesses. -/
def implEmptyOk : Impl :=
  { analysis := some "no changes needed".toList, files := some []
    commit_message := none, verification_notes := none, raw_response := none }

/-- Witness oracles: a generator that always reports no changes, an
always-passing verifier, an always-succeeding commit. -/
def genW : Nat → Option Str → Impl := fun _ _ => implEmptyOk

def verifyW : Nat → Bool × Str := fun _ => (true, [])

def commitW : Nat → Bool := fun _ => true

/-- Witness for C1 at bound 3 with concrete oracles. -/
theorem c1_attempt_bound_witness :
    1 ≤ 3 ∧
    countGen (runSingleTask 3 genW verifyW commitW).2.2 ≤ 3 ∧
    (runSingleTask 3 genW verifyW commitW).2.1.attempts.length
      = countGen (runSingleTask 3 genW verifyW commitW).2.2 ∧
    countSave (runSingleTask 3 genW verifyW commitW).2.2 = 1 :=
  ⟨by decide,
   (c1_attempt_bound 3 (by decide) genW verifyW commitW).1,
   (c1_attempt_bound 3 (by decide) genW verifyW commitW).2.1,
   ((c1_attempt_bound 3 (by decide) genW verifyW commitW).2.2 true (by decide)).1⟩

/-- C2: with attempt bound 3, if generation always parses, applying always
writes files, and every verifier invocation fails, then `run_single_task`
returns `False`, the persisted TaskLog has `final_status =
"failed_verification"` and exactly 3 attempt records, and the trace is
generate/verify/rollback three times — in particular the rollback
(`git checkout .`) runs right after the last failed verification, before the
task ends with the log persistence. -/
theorem c2_failed_verification (gen : Nat → Option Str → Impl) (verify : Nat → Bool × Str)
    (commit : Nat → Bool)
    (hraw : ∀ i ec, (gen i ec).raw_response = none)
    (happ : ∀ i ec, ∃ l, applyImplementation (gen i ec) = .ok l ∧ l ≠ [])
    (hver : ∀ i, (verify i).1 = false) :
    (runSingleTask MAX_FIX_ATTEMPTS gen verify commit).1 = .finished false ∧
    (runSingleTask MAX_FIX_ATTEMPTS gen verify commit).2.1.final_status
      = some "failed_verification".toList ∧
    (runSingleTask MAX_FIX_ATTEMPTS gen verify commit).2.1.attempts.length = 3 ∧
    (runSingleTask MAX_FIX_ATTEMPTS gen verify commit).2.2
      = [.generate 0 none, .verifyCall 0 false, .rollback,
         .generate 1 (some (verifyErrorContext (verify 0).2)), .verifyCall 1 false, .rollback,
         .generate 2 (some (verifyErrorContext (verify 1).2)), .verifyCall 2 false, .rollback,
         .save] := by
  obtain ⟨l0, hl0, hn0⟩ := happ 0 none
  obtain ⟨l1, hl1, hn1⟩ := happ 1 (some (verifyErrorContext (verify 0).2))
  obtain ⟨l2, hl2, hn2⟩ := happ 2 (some (verifyErrorContext (verify 1).2))
  refine ⟨?_, ?_, ?_, ?_⟩ <;>
    simp [runSingleTask, MAX_FIX_ATTEMPTS, runLoop, initLog, hraw, hl0, hl1, hl2,
      hn0, hn1, hn2, hver]

/-- C3: if generation always parses and writes files, the verifier fails on
attempt 1 and passes on attempt 2, and the commit succeeds, then the TaskLog
ends `completed_successfully` with exactly 2 attempt records; the second
record's `error_context` is the feedback string built from attempt 1's
verifier diagnostics (which it contains verbatim), and the trace shows the
rollback between the two attempts. -/
theorem c3_retry_with_feedback (gen : Nat → Option Str → Impl) (verify : Nat → Bool × Str)
    (commit : Nat → Bool)
    (hraw : ∀ i ec, (gen i ec).raw_response = none)
    (happ : ∀ i ec, ∃ l, applyImplementation (gen i ec) = .ok l ∧ l ≠ [])
    (hv0 : (verify 0).1 = false) (hv1 : (verify 1).1 = true) (hc : commit 1 = true) :
    (runSingleTask MAX_FIX_ATTEMPTS gen verify commit).1 = .finished true ∧
    (runSingleTask MAX_FIX_ATTEMPTS gen verify commit).2.1.final_status
      = some "completed_successfully".toList ∧
    (runSingleTask MAX_FIX_ATTEMPTS gen verify commit).2.1.attempts.length = 2 ∧
    (runSingleTask MAX_FIX_ATTEMPTS gen verify commit).2.1.attempts.map
        AttemptData.error_context
      = [none, some (verifyErrorContext (verify 0).2)] ∧
    (∃ pre post, verifyErrorContext (verify 0).2 = pre ++ (verify 0).2 ++ post) ∧
    (runSingleTask MAX_FIX_ATTEMPTS gen verify commit).2.2
      = [.generate 0 none, .verifyCall 0 false, .rollback,
         .generate 1 (some (verifyErrorContext (verify 0).2)), .verifyCall 1 true,
         .commitCall true, .save] := by
  obtain ⟨l0, hl0, hn0⟩ := happ 0 none
  obtain ⟨l1, hl1, hn1⟩ := happ 1 (some (verifyErrorContext (verify 0).2))
  refine ⟨?_, ?_, ?_, ?_, ⟨"Code verification failed with error:\n".toList,
    "\n\nPlease fix the errors.".toList, rfl⟩, ?_⟩ <;>
    simp [runSingleTask, MAX_FIX_ATTEMPTS, runLoop, initLog, logAttempt, hraw, hl0, hl1,
      hn0, hn1, hv0, hv1, hc]

/-- C4: a proposal that parses (no raw response) with `files = []` ends the
task as `completed_no_changes`, returning `True` after a single attempt with
no verifier invocation; a parsed proposal whose nonempty `files` list results
in zero files written ends the task immediately as
`failed_implementation_error`, returning `False` after a single attempt with
no verifier invocation and no retry. -/
theorem c4_empty_files_vs_zero_written (gen : Nat → Option Str → Impl)
    (verify : Nat → Bool × Str) (commit : Nat → Bool) :
    ((gen 0 none).raw_response = none → (gen 0 none).files = some [] →
      (runSingleTask MAX_FIX_ATTEMPTS gen verify commit).1 = .finished true ∧
      (runSingleTask MAX_FIX_ATTEMPTS gen verify commit).2.1.final_status
        = some "completed_no_changes".toList ∧
      (runSingleTask MAX_FIX_ATTEMPTS gen verify commit).2.1.attempts.length = 1 ∧
      (runSingleTask MAX_FIX_ATTEMPTS gen verify commit).2.2 = [.generate 0 none, .save]) ∧
    ((gen 0 none).raw_response = none → applyImplementation (gen 0 none) = .ok [] →
      (gen 0 none).files.getD [] ≠ [] →
      (runSingleTask MAX_FIX_ATTEMPTS gen verify commit).1 = .finished false ∧
      (runSingleTask MAX_FIX_ATTEMPTS gen verify commit).2.1.final_status
        = some "failed_implementation_error".toList ∧
      (runSingleTask MAX_FIX_ATTEMPTS gen verify commit).2.1.attempts.length = 1 ∧
      (runSingleTask MAX_FIX_ATTEMPTS gen verify commit).2.2 = [.generate 0 none, .save]) := by
  constructor
  · intro hraw hfiles
    have happ : applyImplementation (gen 0 none) = .ok [] := by
      simp [applyImplementation, hfiles, applyFiles]
    refine ⟨?_, ?_, ?_, ?_⟩ <;>
      simp [runSingleTask, MAX_FIX_ATTEMPTS, runLoop, initLog, hraw, happ, hfiles]
  · intro hraw happ hfiles
    refine ⟨?_, ?_, ?_, ?_⟩ <;>
      simp [runSingleTask, MAX_FIX_ATTEMPTS, runLoop, initLog, hraw, happ, hfiles]

/-- C5: on a parse failure `generate_implementation` returns the structured
fallback dictionary preserving under `raw_response` the text it tried to
parse (it never raises); and in the pipeline, a proposal carrying
`raw_response` makes the next generation run with the fixed "respond with
valid JSON" instruction as `error_context` while attempts remain, and after
the bound is exhausted the task ends `failed_json_parsing`. -/
theorem c5_parse_failure_handling :
    (∀ r, parseJson (extractResponse r) = none →
      generateImplementation r = fallbackImpl (extractResponse r) ∧
      (generateImplementation r).raw_response = some (extractResponse r)) ∧
    (∀ (gen : Nat → Option Str → Impl) (verify : Nat → Bool × Str) (commit : Nat → Bool),
      (∀ i ec, (gen i ec).raw_response.isSome = true) →
      (runSingleTask MAX_FIX_ATTEMPTS gen verify commit).1 = .finished false ∧
      (runSingleTask MAX_FIX_ATTEMPTS gen verify commit).2.1.final_status
        = some "failed_json_parsing".toList ∧
      (runSingleTask MAX_FIX_ATTEMPTS gen verify commit).2.2
        = [.generate 0 none, .generate 1 (some jsonErrorInstruction),
           .generate 2 (some jsonErrorInstruction), .save]) := by
  constructor
  · intro r hfail
    constructor
    · simp [generateImplementation, hfail]
    · simp [generateImplementation, hfail, fallbackImpl]
  · intro gen verify commit hraw
    refine ⟨?_, ?_, ?_⟩ <;>
      simp [runSingleTask, MAX_FIX_ATTEMPTS, runLoop, initLog, hraw]

/-- C6: if the proposal parses and writes files, verification passes on
attempt 1, and the commit/push fails, then the task ends `failed_commit`
returning `False`, and no rollback is performed on this path (the trace holds
no `git checkout .`), leaving the working tree in its post-apply state. -/
theorem c6_commit_failure_no_rollback (gen : Nat → Option Str → Impl)
    (verify : Nat → Bool × Str) (commit : Nat → Bool)
    (hraw : (gen 0 none).raw_response = none)
    (happ : ∃ l, applyImplementation (gen 0 none) = .ok l ∧ l ≠ [])
    (hv : (verify 0).1 = true) (hc : commit 0 = false) :
    (runSingleTask MAX_FIX_ATTEMPTS gen verify commit).1 = .finished false ∧
    (runSingleTask MAX_FIX_ATTEMPTS gen verify commit).2.1.final_status
      = some "failed_commit".toList ∧
    (runSingleTask MAX_FIX_ATTEMPTS gen verify commit).2.2
      = [.generate 0 none, .verifyCall 0 true, .commitCall false, .save] ∧
    Event.rollback ∉ (runSingleTask MAX_FIX_ATTEMPTS gen verify commit).2.2 := by
  obtain ⟨l0, hl0, hn0⟩ := happ
  refine ⟨?_, ?_, ?_, ?_⟩ <;>
    simp [runSingleTask, MAX_FIX_ATTEMPTS, runLoop, initLog, hraw, hl0, hn0, hv, hc]

/-- A proposal that creates one file, for witnesses. -/
def implFileOk : Impl :=
  { analysis := some "add a lemma".toList
    files := some [{ path := some "nat/add.ac".toList, action := some "create".toList
                     content := some "theorem t".toList, explanation := none }]
    commit_message := some "feat: add".toList, verification_notes := none
    raw_response := none }

/-- A generator oracle always proposing one file creation. -/
def genF : Nat → Option Str → Impl := fun _ _ => implFileOk

/-- An always-failing verifier oracle. -/
def verifyFail : Nat → Bool × Str := fun _ => (false, "verification failed output".toList)

/-- An always-failing commit oracle. -/
def commitF : Nat → Bool := fun _ => false

/-- Witness for C2 with concrete oracles. -/
theorem c2_failed_verification_witness :
    (runSingleTask MAX_FIX_ATTEMPTS genF verifyFail commitF).1 = .finished false ∧
    (runSingleTask MAX_FIX_ATTEMPTS genF verifyFail commitF).2.1.final_status
      = some "failed_verification".toList ∧
    (runSingleTask MAX_FIX_ATTEMPTS genF verifyFail commitF).2.1.attempts.length = 3 ∧
    (runSingleTask MAX_FIX_ATTEMPTS genF verifyFail commitF).2.2
      = [.generate 0 none, .verifyCall 0 false, .rollback,
         .generate 1 (some (verifyErrorContext (verifyFail 0).2)), .verifyCall 1 false, .rollback,
         .generate 2 (some (verifyErrorContext (verifyFail 1).2)), .verifyCall 2 false, .rollback,
         .save] :=
  c2_failed_verification genF verifyFail commitF (fun _ _ => rfl)
    (fun _ _ => ⟨["nat/add.ac".toList], rfl, by simp⟩) (fun _ => rfl)

/-- A verifier oracle failing on attempt 1 and passing afterwards. -/
def verifyOnce : Nat → Bool × Str := fun i =>
  if i = 0 then (false, "first failure".toList) else (true, [])

/-- Witness for C3 with concrete oracles. -/
theorem c3_retry_with_feedback_witness :
    (runSingleTask MAX_FIX_ATTEMPTS genF verifyOnce commitW).1 = .finished true ∧
    (runSingleTask MAX_FIX_ATTEMPTS genF verifyOnce commitW).2.1.final_status
      = some "completed_successfully".toList ∧
    (runSingleTask MAX_FIX_ATTEMPTS genF verifyOnce commitW).2.1.attempts.length = 2 ∧
    (runSingleTask MAX_FIX_ATTEMPTS genF verifyOnce commitW).2.1.attempts.map
        AttemptData.error_context
      = [none, some (verifyErrorContext (verifyOnce 0).2)] ∧
    (∃ pre post, verifyErrorContext (verifyOnce 0).2 = pre ++ (verifyOnce 0).2 ++ post) ∧
    (runSingleTask MAX_FIX_ATTEMPTS genF verifyOnce commitW).2.2
      = [.generate 0 none, .verifyCall 0 false, .rollback,
         .generate 1 (some (verifyErrorContext (verifyOnce 0).2)), .verifyCall 1 true,
         .commitCall true, .save] :=
  c3_retry_with_feedback genF verifyOnce commitW (fun _ _ => rfl)
    (fun _ _ => ⟨["nat/add.ac".toList], rfl, by simp⟩) rfl rfl rfl

/-- A proposal whose single `modify` entry has no `content` (so zero files
get written although `files` is nonempty). -/
def implZeroWritten : Impl :=
  { analysis := some "attempted change".toList
    files := some [{ path := some "nat/add.ac".toList, action := some "modify".toList
                     content := none, explanation := none }]
    commit_message := none, verification_notes := none, raw_response := none }

/-- A generator oracle always producing `implZeroWritten`. -/
def genZ : Nat → Option Str → Impl := fun _ _ => implZeroWritten

/-- Witness for C4: both implications at concrete oracles. -/
theorem c4_empty_files_vs_zero_written_witness :
    ((runSingleTask MAX_FIX_ATTEMPTS genW verifyW commitW).1 = .finished true ∧
     (runSingleTask MAX_FIX_ATTEMPTS genW verifyW commitW).2.1.final_status
       = some "completed_no_changes".toList ∧
     (runSingleTask MAX_FIX_ATTEMPTS genW verifyW commitW).2.1.attempts.length = 1 ∧
     (runSingleTask MAX_FIX_ATTEMPTS genW verifyW commitW).2.2 = [.generate 0 none, .save]) ∧
    ((runSingleTask MAX_FIX_ATTEMPTS genZ verifyW commitW).1 = .finished false ∧
     (runSingleTask MAX_FIX_ATTEMPTS genZ verifyW commitW).2.1.final_status
       = some "failed_implementation_error".toList ∧
     (runSingleTask MAX_FIX_ATTEMPTS genZ verifyW commitW).2.1.attempts.length = 1 ∧
     (runSingleTask MAX_FIX_ATTEMPTS genZ verifyW commitW).2.2 = [.generate 0 none, .save]) :=
  ⟨(c4_empty_files_vs_zero_written genW verifyW commitW).1 rfl rfl,
   (c4_empty_files_vs_zero_written genZ verifyW commitW).2 rfl rfl (by decide)⟩

/-- A generator oracle whose replies never parse. -/
def genBad : Nat → Option Str → Impl := fun _ _ => fallbackImpl "oops".toList

/-- Witness for C5: a concrete unparsable response and concrete oracles. -/
theorem c5_parse_failure_handling_witness :
    (generateImplementation "no".toList = fallbackImpl (extractResponse "no".toList) ∧
     (generateImplementation "no".toList).raw_response = some (extractResponse "no".toList)) ∧
    ((runSingleTask MAX_FIX_ATTEMPTS genBad verifyW commitW).1 = .finished false ∧
     (runSingleTask MAX_FIX_ATTEMPTS genBad verifyW commitW).2.1.final_status
       = some "failed_json_parsing".toList ∧
     (runSingleTask MAX_FIX_ATTEMPTS genBad verifyW commitW).2.2
       = [.generate 0 none, .generate 1 (some jsonErrorInstruction),
          .generate 2 (some jsonErrorInstruction), .save]) :=
  ⟨c5_parse_failure_handling.1 "no".toList rfl,
   c5_parse_failure_handling.2 genBad verifyW commitW (fun _ _ => rfl)⟩

/-- Witness for C6 with concrete oracles. -/
theorem c6_commit_failure_no_rollback_witness :
    (runSingleTask MAX_FIX_ATTEMPTS genF verifyW commitF).1 = .finished false ∧
    (runSingleTask MAX_FIX_ATTEMPTS genF verifyW commitF).2.1.final_status
      = some "failed_commit".toList ∧
    (runSingleTask MAX_FIX_ATTEMPTS genF verifyW commitF).2.2
      = [.generate 0 none, .verifyCall 0 true, .commitCall false, .save] ∧
    Event.rollback ∉ (runSingleTask MAX_FIX_ATTEMPTS genF verifyW commitF).2.2 :=
  c6_commit_failure_no_rollback genF verifyW commitF rfl
    ⟨["nat/add.ac".toList], rfl, by simp⟩ rfl rfl

/-- An entry on which `apply_implementation` raises an uncaught exception:
`path` absent, or a `create` entry without `content`. -/
def raisingEntry (e : FileSpec) : Prop :=
  e.path = none ∨ (getActionD e = "create".toList ∧ e.content = none)

/-- Any raising entry anywhere in the list makes `apply_implementation`
raise: entries before it either raise themselves, are applied, or are
skipped, and only raising aborts the loop. -/
theorem applyFiles_error_of_mem :
    ∀ (l : List FileSpec) (e : FileSpec), e ∈ l → raisingEntry e →
      ∃ m, applyFiles l = .error m := by
  intro l
  induction l with
  | nil => intro e he _; cases he
  | cons fs rest ih =>
    intro e he hr
    rcases List.mem_cons.mp he with rfl | hmem
    · rcases hr with hp | ⟨hact, hcont⟩
      · exact ⟨"KeyError: path".toList, by simp [applyFiles, hp]⟩
      · cases hpath : e.path with
        | none => exact ⟨"KeyError: path".toList, by simp [applyFiles, hpath]⟩
        | some p =>
          exact ⟨"KeyError: content".toList, by simp [applyFiles, hpath, hact, hcont]⟩
    · obtain ⟨m, hm⟩ := ih e hmem hr
      cases hpath : fs.path with
      | none => exact ⟨"KeyError: path".toList, by simp [applyFiles, hpath]⟩
      | some p =>
        by_cases hcr : getActionD fs = "create".toList
        · cases hcont : fs.content with
          | none =>
            exact ⟨"KeyError: content".toList, by simp [applyFiles, hpath, hcr, hcont]⟩
          | some ctext => exact ⟨m, by simp [applyFiles, hpath, hcr, hcont, hm]⟩
        · by_cases hmd : getActionD fs = "modify".toList
          · cases hcont : fs.content with
            | some ctext => exact ⟨m, by simp [applyFiles, hpath, hcr, hmd, hcont, hm]⟩
            | none => exact ⟨m, by simp [applyFiles, hpath, hcr, hmd, hcont, hm]⟩
          · refine ⟨m, ?_⟩
            simp only [applyFiles, hpath]
            rw [if_neg hcr, if_neg hmd]
            exact hm

/-- C10: `apply_implementation` is not total over parsed proposals — a file
entry without `'path'`, or a `create` entry without `'content'`, raises an
exception; only a `modify` entry without `'content'` is guarded (skipped);
and the exception propagates uncaught out of `run_single_task` (the run
crashes and no log is persisted). -/
theorem c10_apply_not_total :
    (∀ (impl : Impl) (e : FileSpec), e ∈ impl.files.getD [] → e.path = none →
      ∃ m, applyImplementation impl = .error m) ∧
    (∀ (impl : Impl) (e : FileSpec), e ∈ impl.files.getD [] →
      getActionD e = "create".toList → e.content = none →
      ∃ m, applyImplementation impl = .error m) ∧
    (∀ (p : Str) (expl : Option Str) (rest : List FileSpec),
      applyFiles ({ path := some p, action := some "modify".toList, content := none
                    explanation := expl } :: rest) = applyFiles rest) ∧
    (∀ (gen : Nat → Option Str → Impl) (verify : Nat → Bool × Str) (commit : Nat → Bool)
      (m : Str), (gen 0 none).raw_response = none →
      applyImplementation (gen 0 none) = .error m →
      (runSingleTask MAX_FIX_ATTEMPTS gen verify commit).1 = .crashed m ∧
      countSave (runSingleTask MAX_FIX_ATTEMPTS gen verify commit).2.2 = 0) := by
  refine ⟨?_, ?_, ?_, ?_⟩
  · intro impl e he hp
    exact applyFiles_error_of_mem _ e he (Or.inl hp)
  · intro impl e he hact hcont
    exact applyFiles_error_of_mem _ e he (Or.inr ⟨hact, hcont⟩)
  · intro p expl rest
    have h1 : ("modify".toList : Str) ≠ "create".toList := by decide
    simp [applyFiles, getActionD, h1]
  · intro gen verify commit m hraw happ
    refine ⟨?_, ?_⟩ <;>
      simp [runSingleTask, MAX_FIX_ATTEMPTS, runLoop, initLog, hraw, happ, countSave,
        List.countP_append, List.countP_cons, isSaveEv]

/-- A proposal whose single entry has no `path`. -/
def implNoPath : Impl :=
  { analysis := none
    files := some [{ path := none, action := none, content := none, explanation := none }]
    commit_message := none, verification_notes := none, raw_response := none }

/-- A proposal whose single entry is a `create` with no `content`. -/
def implCreateNoContent : Impl :=
  { analysis := none
    files := some [{ path := some "a.ac".toList, action := some "create".toList
                     content := none, explanation := none }]
    commit_message := none, verification_notes := none, raw_response := none }

/-- A generator oracle always producing the path-less proposal. -/
def genCrash : Nat → Option Str → Impl := fun _ _ => implNoPath

/-- Witness for C10 at concrete proposals and oracles. -/
theorem c10_apply_not_total_witness :
    (∃ m, applyImplementation implNoPath = .error m) ∧
    (∃ m, applyImplementation implCreateNoContent = .error m) ∧
    applyFiles [{ path := some "b.ac".toList, action := some "modify".toList, content := none
                  explanation := none }] = applyFiles [] ∧
    (runSingleTask MAX_FIX_ATTEMPTS genCrash verifyW commitW).1
      = .crashed "KeyError: path".toList ∧
    countSave (runSingleTask MAX_FIX_ATTEMPTS genCrash verifyW commitW).2.2 = 0 :=
  ⟨c10_apply_not_total.1 implNoPath
      { path := none, action := none, content := none, explanation := none }
      (by decide) rfl,
   c10_apply_not_total.2.1 implCreateNoContent
      { path := some "a.ac".toList, action := some "create".toList
        content := none, explanation := none }
      (by decide) (by decide) rfl,
   c10_apply_not_total.2.2.1 "b.ac".toList none [],
   (c10_apply_not_total.2.2.2 genCrash verifyW commitW "KeyError: path".toList rfl rfl).1,
   (c10_apply_not_total.2.2.2 genCrash verifyW commitW "KeyError: path".toList rfl rfl).2⟩

/-- C8 counterexample: the documentation context file is not size-bounded
and no truncation marker appears — `load_acorn_context` embeds a
20001-character document verbatim after the plain (unmarked) header; the
20000-character truncation named in the source survives only as
commented-out code. -/
theorem c8_counterexample :
    loadAcornContext { claudeMd := none, todoMd := none
                       contextFile := some (String.mk (List.replicate 20001 'a')) }
      = "\n=== Acorn Documentation ===" ++ "\n" ++ String.mk (List.replicate 20001 'a') ∧
    (String.mk (List.replicate 20001 'a')).length = 20001 :=
  ⟨rfl, show (List.replicate 20001 'a').length = 20001 by rw [List.length_replicate]⟩

/-- C8 amended: `load_acorn_context` concatenates, in fixed order, the
guidelines document with its header (if present), the backlog document with
its header (if present), and the documentation context file with its header
(if present) — the documentation blob included in full, with no size bound
and no truncation marker. -/
theorem c8_context_assembly (g t d : String) :
    loadAcornContext { claudeMd := some g, todoMd := some t, contextFile := some d }
      = "=== CLAUDE.md (Development Guidelines) ===" ++ "\n" ++ (g ++ "\n" ++
        ("\n=== TODO.md (Current Tasks) ===" ++ "\n" ++ (t ++ "\n" ++
        ("\n=== Acorn Documentation ===" ++ "\n" ++ d)))) ∧
    loadAcornContext { claudeMd := none, todoMd := none, contextFile := some d }
      = "\n=== Acorn Documentation ===" ++ "\n" ++ d ∧
    loadAcornContext { claudeMd := some g, todoMd := none, contextFile := some d }
      = "=== CLAUDE.md (Development Guidelines) ===" ++ "\n" ++ (g ++ "\n" ++
        ("\n=== Acorn Documentation ===" ++ "\n" ++ d)) ∧
    loadAcornContext { claudeMd := none, todoMd := some t, contextFile := none }
      = "\n=== TODO.md (Current Tasks) ===" ++ "\n" ++ t ∧
    loadAcornContext { claudeMd := none, todoMd := none, contextFile := none } = "" :=
  ⟨rfl, rfl, rfl, rfl, rfl⟩

/-! ## Lemmas about the regex scanners -/

/-- `takeWhile` keeps a list all of whose elements satisfy the predicate. -/
theorem takeWhile_eq_self_of_all {p : Char → Bool} :
    ∀ l : Str, (∀ c ∈ l, p c = true) → l.takeWhile p = l := by
  intro l
  induction l with
  | nil => intro _; rfl
  | cons c cs ih =>
    intro h
    rw [List.takeWhile_cons, if_pos (h c (List.mem_cons_self c cs))]
    rw [ih (fun x hx => h x (List.mem_cons_of_mem c hx))]

/-- A literal that occurs nowhere in a nonempty string is no prefix of it. -/
theorem not_prefix_of_not_occurs (lit : Str) (c : Char) (rest : Str)
    (h : litOccurs lit (c :: rest) = false) : lit.isPrefixOf (c :: rest) = false := by
  have h2 : (lit.isPrefixOf (c :: rest) || litOccurs lit rest) = false := h
  exact (Bool.or_eq_false_iff.mp h2).1

/-- Non-occurrence is inherited by the tail. -/
theorem litOccurs_tail (lit : Str) (c : Char) (rest : Str)
    (h : litOccurs lit (c :: rest) = false) : litOccurs lit rest = false := by
  have h2 : (lit.isPrefixOf (c :: rest) || litOccurs lit rest) = false := h
  exact (Bool.or_eq_false_iff.mp h2).2

/-- A regex scan for a literal that occurs nowhere finds nothing. -/
theorem scanFor_none (lit : Str) (f : Str → Option Str) :
    ∀ s : Str, litOccurs lit s = false → scanFor lit f s = none := by
  intro s
  induction s with
  | nil => intro _; rfl
  | cons c cs ih =>
    intro h
    have h1 := not_prefix_of_not_occurs lit c cs h
    have h2 := ih (litOccurs_tail lit c cs h)
    simp [scanFor, h1, h2]

/-- A position matcher guarded by the checkbox literal never matches inside a
string free of that literal. -/
theorem anyMatch_guarded_none (g : Str → Option Nat)
    (hg : ∀ s, checkboxLit.isPrefixOf s = false → g s = none) :
    ∀ s : Str, litOccurs checkboxLit s = false → anyMatch g s = false := by
  intro s
  induction s with
  | nil => intro _; rfl
  | cons c cs ih =>
    intro h
    have h1 := hg (c :: cs) (not_prefix_of_not_occurs checkboxLit c cs h)
    have h2 := ih (litOccurs_tail checkboxLit c cs h)
    simp [anyMatch, h1, h2]

/-- `dropWhile` never lengthens a list. -/
theorem length_dropWhile_le_self (p : Char → Bool) :
    ∀ l : Str, (l.dropWhile p).length ≤ l.length := by
  intro l
  induction l with
  | nil => simp
  | cons c cs ih =>
    rw [List.dropWhile_cons]
    cases h : p c with
    | true => simp only [if_pos]; exact Nat.le_succ_of_le ih
    | false => simp

/-- The head of a list fixed by `dropWhile` fails the predicate. -/
theorem head_false_of_dropWhile_eq_self {p : Char → Bool} (c : Char) (rest : Str)
    (h : (c :: rest).dropWhile p = c :: rest) : p c = false := by
  cases hpc : p c with
  | false => rfl
  | true =>
    rw [List.dropWhile_cons, if_pos hpc] at h
    have hlen := congrArg List.length h
    have hle := length_dropWhile_le_self p rest
    simp at hlen
    omega

/-- `str.strip()` fixes a string with no leading and no trailing whitespace. -/
theorem pyStrip_eq_self (d : Str) (h1 : d.dropWhile isSpace = d)
    (h2 : d.reverse.dropWhile isSpace = d.reverse) : pyStrip d = d := by
  unfold pyStrip
  rw [h1, h2, List.reverse_reverse]

/-- `isPrefixOf` is reflexive. -/
theorem isPrefixOf_self : ∀ l : Str, l.isPrefixOf l = true := by
  intro l
  induction l with
  | nil => rfl
  | cons c cs ih => simp [List.isPrefixOf, ih]

/-- The tail `\s*(.+?)(?:\n|$)` applied after a single space followed by a
stripped newline-free description captures exactly the description. -/
theorem reTail_space (d : Str) (hne : d ≠ []) (hlead : d.dropWhile isSpace = d)
    (hnl : ('\n' : Char) ∉ d) : reTail (' ' :: d) = some d := by
  obtain ⟨c, cs, rfl⟩ := List.exists_cons_of_ne_nil hne
  have hc : isSpace c = false := head_false_of_dropWhile_eq_self c cs hlead
  have hsp : isSpace ' ' = true := by decide
  have hwr : wsRun (' ' :: c :: cs) = 1 := by
    simp [wsRun, hc, hsp]
  have hcn : ¬ c = '\n' := fun hh => hnl (hh ▸ List.mem_cons_self c cs)
  have htk : (c :: cs).takeWhile (fun x => x != '\n') = c :: cs :=
    takeWhile_eq_self_of_all _ (fun x hx => by
      have hxn : x ≠ '\n' := fun hh => hnl (hh ▸ hx)
      simp [hxn])
  unfold reTail
  rw [hwr]
  simp [wsTailGroup, groupAt, hcn, htk]

/-! ## C7: backlog round-trip -/

/-- A backlog consisting of one unchecked checkbox entry. -/
def docUnchecked (d : Str) : Str := '-' :: ' ' :: '[' :: ' ' :: ']' :: ' ' :: d

/-- The checked rewrite of `docUnchecked`. -/
def docUncheckedDone (d : Str) : Str := '-' :: ' ' :: '[' :: 'x' :: ']' :: ' ' :: d

/-- A backlog consisting of one unchecked NEXT STEP checkbox entry. -/
def docNextStep (d : Str) : Str :=
  '-' :: ' ' :: '[' :: ' ' :: ']' :: ' ' :: '*' :: '*' :: 'N' :: 'E' :: 'X' :: 'T' :: ' ' ::
  'S' :: 'T' :: 'E' :: 'P' :: '*' :: '*' :: ':' :: ' ' :: d

/-- The checked rewrite of `docNextStep`. -/
def docNextStepDone (d : Str) : Str :=
  '-' :: ' ' :: '[' :: 'x' :: ']' :: ' ' :: '~' :: '~' :: 'N' :: 'E' :: 'X' :: 'T' :: ' ' ::
  'S' :: 'T' :: 'E' :: 'P' :: '~' :: '~' :: ':' :: ' ' :: d

theorem docUnchecked_eq (d : Str) : docUnchecked d = "- [ ] ".toList ++ d := rfl

theorem docUncheckedDone_eq (d : Str) : docUncheckedDone d = "- [x] ".toList ++ d := rfl

theorem docNextStep_eq (d : Str) : docNextStep d = "- [ ] **NEXT STEP**: ".toList ++ d := rfl

theorem docNextStepDone_eq (d : Str) :
    docNextStepDone d = "- [x] ~~NEXT STEP~~: ".toList ++ d := rfl

theorem nextStepLit_eq :
    nextStepLit = '*' :: '*' :: 'N' :: 'E' :: 'X' :: 'T' :: ' ' :: 'S' :: 'T' :: 'E' :: 'P' ::
      '*' :: '*' :: ':' :: [] := rfl

theorem checkboxLit_eq : checkboxLit = '-' :: ' ' :: '[' :: ' ' :: ']' :: [] := rfl

/-- The NEXT STEP marker does not occur in the unchecked checkbox document
when it does not occur in the description. -/
theorem ns_not_in_docUnchecked (d : Str) (hns : litOccurs nextStepLit d = false) :
    litOccurs nextStepLit (docUnchecked d) = false := by
  rw [nextStepLit_eq] at hns ⊢
  simp [docUnchecked, litOccurs, List.isPrefixOf, hns]

/-- Likewise for the checked checkbox document. -/
theorem ns_not_in_docUncheckedDone (d : Str) (hns : litOccurs nextStepLit d = false) :
    litOccurs nextStepLit (docUncheckedDone d) = false := by
  rw [nextStepLit_eq] at hns ⊢
  simp [docUncheckedDone, litOccurs, List.isPrefixOf, hns]

/-- The checkbox marker does not occur in the checked checkbox document when
it does not occur in the description. -/
theorem cb_not_in_docUncheckedDone (d : Str) (hcb : litOccurs checkboxLit d = false) :
    litOccurs checkboxLit (docUncheckedDone d) = false := by
  rw [checkboxLit_eq] at hcb ⊢
  simp [docUncheckedDone, litOccurs, List.isPrefixOf, hcb]

/-- The NEXT STEP marker does not occur in the checked NEXT STEP document
(whose marker is rewritten to tildes) when absent from the description. -/
theorem ns_not_in_docNextStepDone (d : Str) (hns : litOccurs nextStepLit d = false) :
    litOccurs nextStepLit (docNextStepDone d) = false := by
  rw [nextStepLit_eq] at hns ⊢
  simp [docNextStepDone, litOccurs, List.isPrefixOf, hns]

/-- The checkbox marker does not occur in the checked NEXT STEP document when
absent from the description. -/
theorem cb_not_in_docNextStepDone (d : Str) (hcb : litOccurs checkboxLit d = false) :
    litOccurs checkboxLit (docNextStepDone d) = false := by
  rw [checkboxLit_eq] at hcb ⊢
  simp [docNextStepDone, litOccurs, List.isPrefixOf, hcb]

/-- The checkbox scan on the unchecked document matches at position 0 and
captures the description. -/
theorem scan_checkbox_docUnchecked (d : Str) (hne : d ≠ []) (hlead : d.dropWhile isSpace = d)
    (hnl : ('\n' : Char) ∉ d) :
    scanFor checkboxLit reTail (docUnchecked d) = some d := by
  have htail := reTail_space d hne hlead hnl
  calc scanFor checkboxLit reTail (docUnchecked d)
      = (match reTail (' ' :: d) with
         | some g => some g
         | none => scanFor checkboxLit reTail (' ' :: '[' :: ' ' :: ']' :: ' ' :: d)) := rfl
    _ = some d := by rw [htail]

/-- The NEXT STEP scan on the NEXT STEP checkbox document matches at
position 6 and captures the description. -/
theorem scan_nextstep_docNextStep (d : Str) (hne : d ≠ []) (hlead : d.dropWhile isSpace = d)
    (hnl : ('\n' : Char) ∉ d) :
    scanFor nextStepLit reTail (docNextStep d) = some d := by
  have htail := reTail_space d hne hlead hnl
  calc scanFor nextStepLit reTail (docNextStep d)
      = (match reTail (' ' :: d) with
         | some g => some g
         | none => scanFor nextStepLit reTail
             ('*' :: 'N' :: 'E' :: 'X' :: 'T' :: ' ' :: 'S' :: 'T' :: 'E' :: 'P' :: '*' ::
              '*' :: ':' :: ' ' :: d)) := rfl
    _ = some d := by rw [htail]

/-- A position without the checkbox literal never matches pattern 1. -/
theorem p1_none_of_no_checkbox (desc s : Str) (hs : checkboxLit.isPrefixOf s = false) :
    p1MatchLen desc s = none := by
  unfold p1MatchLen
  rw [if_neg (by simp [hs])]

/-- A position without the checkbox literal never matches pattern 2. -/
theorem p2_none_of_no_checkbox (desc s : Str) (hs : checkboxLit.isPrefixOf s = false) :
    p2MatchLen desc s = none := by
  unfold p2MatchLen
  rw [if_neg (by simp [hs])]

/-- Pattern 1 (the NEXT STEP checkbox pattern) does not match at the head of
the plain unchecked document: after the checkbox and whitespace there is no
NEXT STEP marker. -/
theorem p1_at0_docUnchecked (c : Char) (cs : Str) (hc : isSpace c = false)
    (hns : litOccurs nextStepLit (c :: cs) = false) :
    p1MatchLen (c :: cs) (docUnchecked (c :: cs)) = none := by
  have hnp : nextStepLit.isPrefixOf (c :: cs) = false := not_prefix_of_not_occurs _ c cs hns
  have hnp0 : nextStepLit.isPrefixOf (' ' :: c :: cs) = false := by
    rw [nextStepLit_eq]
    simp [List.isPrefixOf]
  have hsp : isSpace ' ' = true := by decide
  have hwr : wsRun (' ' :: c :: cs) = 1 := by simp [wsRun, hc, hsp]
  have hwl : wsLitK nextStepLit (' ' :: c :: cs) 1 = none := by
    simp [wsLitK, hnp, hnp0]
  calc p1MatchLen (c :: cs) (docUnchecked (c :: cs))
      = (match wsLitK nextStepLit (' ' :: c :: cs) (wsRun (' ' :: c :: cs)) with
         | some k1 =>
           (match wsLitK (c :: cs) ((' ' :: c :: cs).drop (k1 + 14))
                (wsRun ((' ' :: c :: cs).drop (k1 + 14))) with
            | some k2 => some (5 + k1 + 14 + k2 + (c :: cs).length)
            | none => none)
         | none => none) := rfl
    _ = none := by rw [hwr, hwl]

/-- Pattern 1 matches nowhere in the plain unchecked document. -/
theorem p1_any_docUnchecked (c : Char) (cs : Str) (hc : isSpace c = false)
    (hns : litOccurs nextStepLit (c :: cs) = false)
    (hcb : litOccurs checkboxLit (c :: cs) = false) :
    anyMatch (p1MatchLen (c :: cs)) (docUnchecked (c :: cs)) = false := by
  have h0 := p1_at0_docUnchecked c cs hc hns
  have h1 : p1MatchLen (c :: cs) (' ' :: '[' :: ' ' :: ']' :: ' ' :: c :: cs) = none :=
    p1_none_of_no_checkbox _ _ (by rw [checkboxLit_eq]; simp [List.isPrefixOf])
  have h2 : p1MatchLen (c :: cs) ('[' :: ' ' :: ']' :: ' ' :: c :: cs) = none :=
    p1_none_of_no_checkbox _ _ (by rw [checkboxLit_eq]; simp [List.isPrefixOf])
  have h3 : p1MatchLen (c :: cs) (' ' :: ']' :: ' ' :: c :: cs) = none :=
    p1_none_of_no_checkbox _ _ (by rw [checkboxLit_eq]; simp [List.isPrefixOf])
  have h4 : p1MatchLen (c :: cs) (']' :: ' ' :: c :: cs) = none :=
    p1_none_of_no_checkbox _ _ (by rw [checkboxLit_eq]; simp [List.isPrefixOf])
  have h5 : p1MatchLen (c :: cs) (' ' :: c :: cs) = none :=
    p1_none_of_no_checkbox _ _ (by rw [checkboxLit_eq]; simp [List.isPrefixOf])
  have hrest : anyMatch (p1MatchLen (c :: cs)) (c :: cs) = false :=
    anyMatch_guarded_none _ (fun s hs => p1_none_of_no_checkbox _ s hs) _ hcb
  have h0x : p1MatchLen (c :: cs) ('-' :: ' ' :: '[' :: ' ' :: ']' :: ' ' :: c :: cs) = none := h0
  calc anyMatch (p1MatchLen (c :: cs)) (docUnchecked (c :: cs))
      = ((p1MatchLen (c :: cs) ('-' :: ' ' :: '[' :: ' ' :: ']' :: ' ' :: c :: cs)).isSome ||
         ((p1MatchLen (c :: cs) (' ' :: '[' :: ' ' :: ']' :: ' ' :: c :: cs)).isSome ||
          ((p1MatchLen (c :: cs) ('[' :: ' ' :: ']' :: ' ' :: c :: cs)).isSome ||
           ((p1MatchLen (c :: cs) (' ' :: ']' :: ' ' :: c :: cs)).isSome ||
            ((p1MatchLen (c :: cs) (']' :: ' ' :: c :: cs)).isSome ||
             ((p1MatchLen (c :: cs) (' ' :: c :: cs)).isSome ||
              anyMatch (p1MatchLen (c :: cs)) (c :: cs))))))) := rfl
    _ = false := by rw [h0x, h1, h2, h3, h4, h5, hrest]; rfl

/-- Pattern 2 matches at the head of the plain unchecked document, consuming
the checkbox, the single space and the whole description. -/
theorem p2_at0_docUnchecked (c : Char) (cs : Str) (hc : isSpace c = false) :
    p2MatchLen (c :: cs) (docUnchecked (c :: cs)) = some (5 + 1 + (c :: cs).length) := by
  have hsp : isSpace ' ' = true := by decide
  have hwr : wsRun (' ' :: c :: cs) = 1 := by simp [wsRun, hc, hsp]
  have hwl : wsLitK (c :: cs) (' ' :: c :: cs) 1 = some 1 := by
    simp [wsLitK, isPrefixOf_self]
  calc p2MatchLen (c :: cs) (docUnchecked (c :: cs))
      = (match wsLitK (c :: cs) (' ' :: c :: cs) (wsRun (' ' :: c :: cs)) with
         | some k => some (5 + k + (c :: cs).length)
         | none => none) := rfl
    _ = some (5 + 1 + (c :: cs).length) := by rw [hwr, hwl]

/-- The single pattern-2 substitution rewrites the unchecked document to its
checked form. -/
theorem sub_p2_docUnchecked (c : Char) (cs : Str) (hc : isSpace c = false) :
    subAll (p2MatchLen (c :: cs)) ("- [x] ".toList ++ (c :: cs))
        ((docUnchecked (c :: cs)).length + 1) (docUnchecked (c :: cs))
      = docUncheckedDone (c :: cs) := by
  have hp2 := p2_at0_docUnchecked c cs hc
  have hdrop : (docUnchecked (c :: cs)).drop (5 + 1 + (c :: cs).length) = [] := by
    apply List.drop_eq_nil_of_le
    simp only [docUnchecked, List.length_cons]
    omega
  calc subAll (p2MatchLen (c :: cs)) ("- [x] ".toList ++ (c :: cs))
        ((docUnchecked (c :: cs)).length + 1) (docUnchecked (c :: cs))
      = (match p2MatchLen (c :: cs) (docUnchecked (c :: cs)) with
         | some n => "- [x] ".toList ++ (c :: cs) ++
             subAll (p2MatchLen (c :: cs)) ("- [x] ".toList ++ (c :: cs))
               (docUnchecked (c :: cs)).length ((docUnchecked (c :: cs)).drop n)
         | none => '-' :: subAll (p2MatchLen (c :: cs)) ("- [x] ".toList ++ (c :: cs))
             (docUnchecked (c :: cs)).length (' ' :: '[' :: ' ' :: ']' :: ' ' :: c :: cs)) := rfl
    _ = "- [x] ".toList ++ (c :: cs) ++
          subAll (p2MatchLen (c :: cs)) ("- [x] ".toList ++ (c :: cs))
            (docUnchecked (c :: cs)).length
            ((docUnchecked (c :: cs)).drop (5 + 1 + (c :: cs).length)) := by rw [hp2]
    _ = "- [x] ".toList ++ (c :: cs) ++
          subAll (p2MatchLen (c :: cs)) ("- [x] ".toList ++ (c :: cs))
            (docUnchecked (c :: cs)).length [] := by rw [hdrop]
    _ = docUncheckedDone (c :: cs) := by
          rw [show subAll (p2MatchLen (c :: cs)) ("- [x] ".toList ++ (c :: cs))
                (docUnchecked (c :: cs)).length [] = [] from rfl]
          rw [List.append_nil]
          rfl

/-- `update_todo_mark_complete` on the plain unchecked document: pattern 1
does not occur, pattern 2 rewrites the entry to its checked form. -/
theorem update_docUnchecked (c : Char) (cs : Str) (hc : isSpace c = false)
    (hns : litOccurs nextStepLit (c :: cs) = false)
    (hcb : litOccurs checkboxLit (c :: cs) = false) :
    updateTodoMarkComplete (docUnchecked (c :: cs)) (c :: cs)
      = docUncheckedDone (c :: cs) := by
  have hA1 := p1_any_docUnchecked c cs hc hns hcb
  have hp2 := p2_at0_docUnchecked c cs hc
  have hA2 : anyMatch (p2MatchLen (c :: cs)) (docUnchecked (c :: cs)) = true := by
    have hp2x : p2MatchLen (c :: cs) ('-' :: ' ' :: '[' :: ' ' :: ']' :: ' ' :: c :: cs)
        = some (5 + 1 + (c :: cs).length) := hp2
    calc anyMatch (p2MatchLen (c :: cs)) (docUnchecked (c :: cs))
        = ((p2MatchLen (c :: cs) ('-' :: ' ' :: '[' :: ' ' :: ']' :: ' ' :: c :: cs)).isSome ||
           anyMatch (p2MatchLen (c :: cs)) (' ' :: '[' :: ' ' :: ']' :: ' ' :: c :: cs)) := rfl
      _ = true := by rw [hp2x]; rfl
  have hsub := sub_p2_docUnchecked c cs hc
  unfold updateTodoMarkComplete
  rw [if_neg (by simp [hA1]), if_pos hA2]
  exact hsub

/-- `extract_next_task` on the plain unchecked document returns the
description as an unchecked item. -/
theorem extract_docUnchecked (c : Char) (cs : Str)
    (hlead : (c :: cs).dropWhile isSpace = c :: cs)
    (htrail : (c :: cs).reverse.dropWhile isSpace = (c :: cs).reverse)
    (hnl : ('\n' : Char) ∉ c :: cs)
    (hns : litOccurs nextStepLit (c :: cs) = false) :
    extractNextTask (docUnchecked (c :: cs)) = some ⟨c :: cs, false⟩ := by
  have h1 : scanFor nextStepLit reTail (docUnchecked (c :: cs)) = none :=
    scanFor_none _ _ _ (ns_not_in_docUnchecked _ hns)
  have h2 := scan_checkbox_docUnchecked (c :: cs) (by simp) hlead hnl
  unfold extractNextTask
  rw [h1, h2]
  show some (ExtractedTask.mk (pyStrip (c :: cs)) false)
      = some (ExtractedTask.mk (c :: cs) false)
  rw [pyStrip_eq_self _ hlead htrail]

/-- `extract_next_task` finds nothing in the checked checkbox document. -/
theorem extract_docUncheckedDone (d : Str) (hns : litOccurs nextStepLit d = false)
    (hcb : litOccurs checkboxLit d = false) :
    extractNextTask (docUncheckedDone d) = none := by
  have h1 := scanFor_none nextStepLit reTail _ (ns_not_in_docUncheckedDone d hns)
  have h2 := scanFor_none checkboxLit reTail _ (cb_not_in_docUncheckedDone d hcb)
  unfold extractNextTask
  rw [h1, h2]

/-- Pattern 1 matches at the head of the NEXT STEP checkbox document,
consuming checkbox, marker, spacing and the whole description. -/
theorem p1_at0_docNextStep (c : Char) (cs : Str) (hc : isSpace c = false) :
    p1MatchLen (c :: cs) (docNextStep (c :: cs))
      = some (5 + 1 + 14 + 1 + (c :: cs).length) := by
  have hsp : isSpace ' ' = true := by decide
  have hst : isSpace '*' = false := by decide
  have hwr1 : wsRun (' ' :: '*' :: '*' :: 'N' :: 'E' :: 'X' :: 'T' :: ' ' :: 'S' :: 'T' ::
      'E' :: 'P' :: '*' :: '*' :: ':' :: ' ' :: c :: cs) = 1 := by
    simp [wsRun, hsp, hst]
  have hwl1 : wsLitK nextStepLit (' ' :: '*' :: '*' :: 'N' :: 'E' :: 'X' :: 'T' :: ' ' ::
      'S' :: 'T' :: 'E' :: 'P' :: '*' :: '*' :: ':' :: ' ' :: c :: cs) 1 = some 1 := by
    rw [nextStepLit_eq]
    simp [wsLitK, List.isPrefixOf]
  have hwr2 : wsRun (' ' :: c :: cs) = 1 := by simp [wsRun, hc, hsp]
  have hwl2 : wsLitK (c :: cs) (' ' :: c :: cs) 1 = some 1 := by
    simp [wsLitK, isPrefixOf_self]
  calc p1MatchLen (c :: cs) (docNextStep (c :: cs))
      = (match wsLitK nextStepLit (' ' :: '*' :: '*' :: 'N' :: 'E' :: 'X' :: 'T' :: ' ' ::
             'S' :: 'T' :: 'E' :: 'P' :: '*' :: '*' :: ':' :: ' ' :: c :: cs)
           (wsRun (' ' :: '*' :: '*' :: 'N' :: 'E' :: 'X' :: 'T' :: ' ' :: 'S' :: 'T' ::
             'E' :: 'P' :: '*' :: '*' :: ':' :: ' ' :: c :: cs)) with
         | some k1 =>
           (match wsLitK (c :: cs)
                ((' ' :: '*' :: '*' :: 'N' :: 'E' :: 'X' :: 'T' :: ' ' :: 'S' :: 'T' ::
                  'E' :: 'P' :: '*' :: '*' :: ':' :: ' ' :: c :: cs).drop (k1 + 14))
                (wsRun ((' ' :: '*' :: '*' :: 'N' :: 'E' :: 'X' :: 'T' :: ' ' :: 'S' :: 'T' ::
                  'E' :: 'P' :: '*' :: '*' :: ':' :: ' ' :: c :: cs).drop (k1 + 14))) with
            | some k2 => some (5 + k1 + 14 + k2 + (c :: cs).length)
            | none => none)
         | none => none) := rfl
    _ = (match wsLitK (c :: cs)
             ((' ' :: '*' :: '*' :: 'N' :: 'E' :: 'X' :: 'T' :: ' ' :: 'S' :: 'T' ::
               'E' :: 'P' :: '*' :: '*' :: ':' :: ' ' :: c :: cs).drop (1 + 14))
             (wsRun ((' ' :: '*' :: '*' :: 'N' :: 'E' :: 'X' :: 'T' :: ' ' :: 'S' :: 'T' ::
               'E' :: 'P' :: '*' :: '*' :: ':' :: ' ' :: c :: cs).drop (1 + 14))) with
         | some k2 => some (5 + 1 + 14 + k2 + (c :: cs).length)
         | none => none) := by rw [hwr1, hwl1]
    _ = (match wsLitK (c :: cs) (' ' :: c :: cs) (wsRun (' ' :: c :: cs)) with
         | some k2 => some (5 + 1 + 14 + k2 + (c :: cs).length)
         | none => none) := by
          rw [show (' ' :: '*' :: '*' :: 'N' :: 'E' :: 'X' :: 'T' :: ' ' :: 'S' :: 'T' ::
               'E' :: 'P' :: '*' :: '*' :: ':' :: ' ' :: c :: cs).drop (1 + 14)
              = ' ' :: c :: cs from rfl]
    _ = some (5 + 1 + 14 + 1 + (c :: cs).length) := by rw [hwr2, hwl2]

/-- Pattern 1 matches somewhere in the NEXT STEP checkbox document. -/
theorem p1_any_docNextStep (c : Char) (cs : Str) (hc : isSpace c = false) :
    anyMatch (p1MatchLen (c :: cs)) (docNextStep (c :: cs)) = true := by
  have hp1x : p1MatchLen (c :: cs) ('-' :: ' ' :: '[' :: ' ' :: ']' :: ' ' :: '*' :: '*' ::
      'N' :: 'E' :: 'X' :: 'T' :: ' ' :: 'S' :: 'T' :: 'E' :: 'P' :: '*' :: '*' :: ':' ::
      ' ' :: c :: cs) = some (5 + 1 + 14 + 1 + (c :: cs).length) := p1_at0_docNextStep c cs hc
  calc anyMatch (p1MatchLen (c :: cs)) (docNextStep (c :: cs))
      = ((p1MatchLen (c :: cs) ('-' :: ' ' :: '[' :: ' ' :: ']' :: ' ' :: '*' :: '*' ::
          'N' :: 'E' :: 'X' :: 'T' :: ' ' :: 'S' :: 'T' :: 'E' :: 'P' :: '*' :: '*' :: ':' ::
          ' ' :: c :: cs)).isSome ||
         anyMatch (p1MatchLen (c :: cs)) (' ' :: '[' :: ' ' :: ']' :: ' ' :: '*' :: '*' ::
          'N' :: 'E' :: 'X' :: 'T' :: ' ' :: 'S' :: 'T' :: 'E' :: 'P' :: '*' :: '*' :: ':' ::
          ' ' :: c :: cs)) := rfl
    _ = true := by rw [hp1x]; rfl

/-- The single pattern-1 substitution rewrites the NEXT STEP document to its
checked tilde form. -/
theorem sub_p1_docNextStep (c : Char) (cs : Str) (hc : isSpace c = false) :
    subAll (p1MatchLen (c :: cs)) ("- [x] ~~NEXT STEP~~: ".toList ++ (c :: cs))
        ((docNextStep (c :: cs)).length + 1) (docNextStep (c :: cs))
      = docNextStepDone (c :: cs) := by
  have hp1 := p1_at0_docNextStep c cs hc
  have hdrop : (docNextStep (c :: cs)).drop (5 + 1 + 14 + 1 + (c :: cs).length) = [] := by
    apply List.drop_eq_nil_of_le
    simp only [docNextStep, List.length_cons]
    omega
  calc subAll (p1MatchLen (c :: cs)) ("- [x] ~~NEXT STEP~~: ".toList ++ (c :: cs))
        ((docNextStep (c :: cs)).length + 1) (docNextStep (c :: cs))
      = (match p1MatchLen (c :: cs) (docNextStep (c :: cs)) with
         | some n => "- [x] ~~NEXT STEP~~: ".toList ++ (c :: cs) ++
             subAll (p1MatchLen (c :: cs)) ("- [x] ~~NEXT STEP~~: ".toList ++ (c :: cs))
               (docNextStep (c :: cs)).length ((docNextStep (c :: cs)).drop n)
         | none => '-' :: subAll (p1MatchLen (c :: cs))
             ("- [x] ~~NEXT STEP~~: ".toList ++ (c :: cs)) (docNextStep (c :: cs)).length
             (' ' :: '[' :: ' ' :: ']' :: ' ' :: '*' :: '*' :: 'N' :: 'E' :: 'X' :: 'T' ::
              ' ' :: 'S' :: 'T' :: 'E' :: 'P' :: '*' :: '*' :: ':' :: ' ' :: c :: cs)) := rfl
    _ = "- [x] ~~NEXT STEP~~: ".toList ++ (c :: cs) ++
          subAll (p1MatchLen (c :: cs)) ("- [x] ~~NEXT STEP~~: ".toList ++ (c :: cs))
            (docNextStep (c :: cs)).length
            ((docNextStep (c :: cs)).drop (5 + 1 + 14 + 1 + (c :: cs).length)) := by rw [hp1]
    _ = "- [x] ~~NEXT STEP~~: ".toList ++ (c :: cs) ++
          subAll (p1MatchLen (c :: cs)) ("- [x] ~~NEXT STEP~~: ".toList ++ (c :: cs))
            (docNextStep (c :: cs)).length [] := by rw [hdrop]
    _ = docNextStepDone (c :: cs) := by
          rw [show subAll (p1MatchLen (c :: cs)) ("- [x] ~~NEXT STEP~~: ".toList ++ (c :: cs))
                (docNextStep (c :: cs)).length [] = [] from rfl]
          rw [List.append_nil]
          rfl

/-- `update_todo_mark_complete` on the NEXT STEP checkbox document: the first
pattern matches and rewrites the entry to its tilde form. -/
theorem update_docNextStep (c : Char) (cs : Str) (hc : isSpace c = false) :
    updateTodoMarkComplete (docNextStep (c :: cs)) (c :: cs)
      = docNextStepDone (c :: cs) := by
  have hA1 := p1_any_docNextStep c cs hc
  have hsub := sub_p1_docNextStep c cs hc
  unfold updateTodoMarkComplete
  rw [if_pos hA1]
  exact hsub

/-- `extract_next_task` on the NEXT STEP checkbox document returns the
description as a NEXT STEP item. -/
theorem extract_docNextStep (c : Char) (cs : Str)
    (hlead : (c :: cs).dropWhile isSpace = c :: cs)
    (htrail : (c :: cs).reverse.dropWhile isSpace = (c :: cs).reverse)
    (hnl : ('\n' : Char) ∉ c :: cs) :
    extractNextTask (docNextStep (c :: cs)) = some ⟨c :: cs, true⟩ := by
  have h1 := scan_nextstep_docNextStep (c :: cs) (by simp) hlead hnl
  unfold extractNextTask
  rw [h1]
  show some (ExtractedTask.mk (pyStrip (c :: cs)) true)
      = some (ExtractedTask.mk (c :: cs) true)
  rw [pyStrip_eq_self _ hlead htrail]

/-- `extract_next_task` finds nothing in the checked NEXT STEP document. -/
theorem extract_docNextStepDone (d : Str) (hns : litOccurs nextStepLit d = false)
    (hcb : litOccurs checkboxLit d = false) :
    extractNextTask (docNextStepDone d) = none := by
  have h1 := scanFor_none nextStepLit reTail _ (ns_not_in_docNextStepDone d hns)
  have h2 := scanFor_none checkboxLit reTail _ (cb_not_in_docNextStepDone d hcb)
  unfold extractNextTask
  rw [h1, h2]

/-- The backlog used by the C7 counterexample: a bare NEXT STEP line with no
checkbox prefix. -/
def bareNextStepDoc : Str := "**NEXT STEP**: foo".toList

/-- C7 counterexample: on a backlog holding the bare entry
`**NEXT STEP**: foo`, `extract_next_task` returns `foo`, but
`update_todo_mark_complete` matches neither of its two checkbox patterns and
leaves the document unchanged, so re-extraction returns the very same
description again — the claimed round-trip fails for the NEXT STEP form. -/
theorem c7_counterexample :
    extractNextTask bareNextStepDoc = some ⟨"foo".toList, true⟩ ∧
    updateTodoMarkComplete bareNextStepDoc "foo".toList = bareNextStepDoc ∧
    extractNextTask (updateTodoMarkComplete bareNextStepDoc "foo".toList)
      = some ⟨"foo".toList, true⟩ := by
  refine ⟨?_, ?_, ?_⟩ <;> rfl

/-- C7 amended: the round-trip holds for entries in checkbox form.  For every
backlog consisting of a single checkbox entry — `- [ ] desc` or
`- [ ] **NEXT STEP**: desc` — whose description is nonempty, stripped, free
of newlines and backslashes, and does not itself contain the `- [ ]` or
`**NEXT STEP**:` markers, `extract_next_task` returns the description,
`update_todo_mark_complete` rewrites the entry to its checked form, and
re-extraction returns no task (in particular never the completed description
again).  The bare `**NEXT STEP**: desc` form without checkbox prefix remains
excluded: there the document is left unchanged (see the counterexample). -/
theorem c7_checkbox_roundtrip (d : Str) (hne : d ≠ [])
    (hnl : ('\n' : Char) ∉ d) (hbs : bslash ∉ d)
    (hlead : d.dropWhile isSpace = d)
    (htrail : d.reverse.dropWhile isSpace = d.reverse)
    (hns : litOccurs nextStepLit d = false)
    (hcb : litOccurs checkboxLit d = false) :
    extractNextTask (docUnchecked d) = some ⟨d, false⟩ ∧
    updateTodoMarkComplete (docUnchecked d) d = docUncheckedDone d ∧
    extractNextTask (docUncheckedDone d) = none ∧
    extractNextTask (docNextStep d) = some ⟨d, true⟩ ∧
    updateTodoMarkComplete (docNextStep d) d = docNextStepDone d ∧
    extractNextTask (docNextStepDone d) = none := by
  obtain ⟨c, cs, rfl⟩ := List.exists_cons_of_ne_nil hne
  have hc : isSpace c = false := head_false_of_dropWhile_eq_self c cs hlead
  exact ⟨extract_docUnchecked c cs hlead htrail hnl hns,
    update_docUnchecked c cs hc hns hcb,
    extract_docUncheckedDone _ hns hcb,
    extract_docNextStep c cs hlead htrail hnl,
    update_docNextStep c cs hc,
    extract_docNextStepDone _ hns hcb⟩

/-- Witness for C7's amended round-trip at the concrete description
`fix add`. -/
theorem c7_checkbox_roundtrip_witness :
    extractNextTask (docUnchecked "fix add".toList) = some ⟨"fix add".toList, false⟩ ∧
    updateTodoMarkComplete (docUnchecked "fix add".toList) "fix add".toList
      = docUncheckedDone "fix add".toList ∧
    extractNextTask (docUncheckedDone "fix add".toList) = none ∧
    extractNextTask (docNextStep "fix add".toList) = some ⟨"fix add".toList, true⟩ ∧
    updateTodoMarkComplete (docNextStep "fix add".toList) "fix add".toList
      = docNextStepDone "fix add".toList ∧
    extractNextTask (docNextStepDone "fix add".toList) = none :=
  c7_checkbox_roundtrip "fix add".toList (by decide) (by decide) (by decide) (by decide)
    (by decide) (by decide) (by decide)

/-! ## C9: fenced-JSON extraction -/

/-- A backend reply wrapping text in a `json` fenced code block. -/
def wrapFence (T : Str) : Str :=
  btick :: btick :: btick :: 'j' :: 's' :: 'o' :: 'n' :: '\n' :: (T ++ ('\n' :: fenceLit))

/-- The fence opener occurs nowhere in a backtick-free string. -/
theorem fenceJson_not_in_of_no_btick :
    ∀ s : Str, (∀ c ∈ s, c ≠ btick) → litOccurs fenceJsonLit s = false := by
  intro s
  induction s with
  | nil => intro _; rfl
  | cons c cs ih =>
    intro h
    have hc : c ≠ btick := h c (List.mem_cons_self c cs)
    have hb : (btick == c) = false := beq_eq_false_iff_ne.mpr (fun hh => hc hh.symm)
    have h1 : fenceJsonLit.isPrefixOf (c :: cs) = false := by
      rw [show fenceJsonLit = btick :: btick :: btick :: 'j' :: 's' :: 'o' :: 'n' :: [] from rfl]
      simp [List.isPrefixOf, hb]
    have h2 := ih (fun x hx => h x (List.mem_cons_of_mem _ hx))
    simp [litOccurs, h1, h2]

/-- After an interior closing brace of a backtick-free body, the closing
fence check fails: skipping whitespace stops at a non-backtick character (at
the latest at the final closing brace). -/
theorem fenceAfter_false_mid :
    ∀ mid2 : Str, (∀ x ∈ mid2, x ≠ btick) → ∀ after : Str,
      fenceAfter (mid2 ++ rbrace :: after) = false := by
  intro mid2
  induction mid2 with
  | nil =>
    intro _ after
    have h1 : isSpace rbrace = false := by decide
    have hb : (btick == rbrace) = false := by decide
    unfold fenceAfter
    rw [List.nil_append, List.dropWhile_cons, if_neg (by simp [h1])]
    rw [show fenceLit = btick :: btick :: btick :: [] from rfl]
    simp [List.isPrefixOf, hb]
  | cons x m2 ih =>
    intro h after
    have hx : x ≠ btick := h x (List.mem_cons_self x m2)
    unfold fenceAfter
    rw [List.cons_append, List.dropWhile_cons]
    by_cases hsx : isSpace x = true
    · rw [if_pos (by simp [hsx])]
      have := ih (fun y hy => h y (List.mem_cons_of_mem _ hy)) after
      unfold fenceAfter at this
      exact this
    · rw [if_neg (by simp at hsx ⊢; exact hsx)]
      have hb : (btick == x) = false := beq_eq_false_iff_ne.mpr (fun hh => hx hh.symm)
      rw [show fenceLit = btick :: btick :: btick :: [] from rfl]
      simp [List.isPrefixOf, hb]

/-- The lazy `.*?\}` scan over a backtick-free body ending in a closing brace
followed by the closing fence stops exactly at that final brace. -/
theorem tryCloseBrace_cons (acc : Str) (c : Char) (rest : Str) :
    tryCloseBrace acc (c :: rest)
      = if c = rbrace then
          (if fenceAfter rest then some ((c :: acc).reverse)
           else tryCloseBrace (c :: acc) rest)
        else tryCloseBrace (c :: acc) rest := by
  simp only [tryCloseBrace]

theorem tryCloseBrace_run :
    ∀ mid : Str, (∀ x ∈ mid, x ≠ btick) → ∀ acc : Str,
      tryCloseBrace acc (mid ++ rbrace :: '\n' :: fenceLit)
        = some (acc.reverse ++ (mid ++ [rbrace])) := by
  intro mid
  induction mid with
  | nil =>
    intro _ acc
    have hfa : fenceAfter ('\n' :: fenceLit) = true := by decide
    simp [tryCloseBrace, hfa]
  | cons x m2 ih =>
    intro h acc
    have hm2 : ∀ y ∈ m2, y ≠ btick := fun y hy => h y (List.mem_cons_of_mem _ hy)
    by_cases hxr : x = rbrace
    · subst hxr
      have hfa := fenceAfter_false_mid m2 hm2 ('\n' :: fenceLit)
      rw [List.cons_append, tryCloseBrace_cons, if_pos rfl, if_neg (by simp [hfa])]
      rw [ih hm2 (rbrace :: acc)]
      simp
    · rw [List.cons_append, tryCloseBrace_cons, if_neg hxr]
      rw [ih hm2 (x :: acc)]
      simp

/-- Without any backtick in the response, the fence regex does not match and
the response is parsed as-is. -/
theorem extractResponse_id_of_no_btick (T : Str) (hbt : ∀ c ∈ T, c ≠ btick) :
    extractResponse T = T := by
  unfold extractResponse
  rw [scanFor_none _ _ _ (fenceJson_not_in_of_no_btick T hbt)]

/-- Wrapping a backtick-free brace-delimited text in a `json` fence makes the
extraction regex recover exactly that text. -/
theorem extractResponse_wrap (T : Str) (hne : T ≠ [])
    (hh : T.head? = some lbrace) (hl : T.getLast? = some rbrace)
    (hbt : ∀ c ∈ T, c ≠ btick) :
    extractResponse (wrapFence T) = T := by
  obtain ⟨c, rest, rfl⟩ := List.exists_cons_of_ne_nil hne
  have hc : c = lbrace := by simpa using hh
  subst hc
  rcases List.eq_nil_or_concat rest with rfl | ⟨mid, a, rfl⟩
  · simp at hl
    exact absurd hl (by decide)
  · simp only [List.concat_eq_append] at hl hbt ⊢
    have ha : a = rbrace := by
      have hx : (lbrace :: (mid ++ [a])).getLast? = some a := by
        rw [show lbrace :: (mid ++ [a]) = (lbrace :: mid) ++ [a] from by
          rw [List.cons_append]]
        exact List.getLast?_concat _
      rw [hx] at hl
      exact Option.some.inj hl
    subst ha
    have hmid : ∀ x ∈ mid, x ≠ btick := fun x hx => hbt x (by simp [hx])
    have htcb := tryCloseBrace_run mid hmid [lbrace]
    have hassoc : (lbrace :: (mid ++ [rbrace])) ++ ('\n' :: fenceLit)
        = lbrace :: (mid ++ (rbrace :: '\n' :: fenceLit)) := by
      simp [List.append_assoc]
    unfold extractResponse wrapFence
    rw [hassoc]
    have hscan : scanFor fenceJsonLit fenceTail
        (btick :: btick :: btick :: 'j' :: 's' :: 'o' :: 'n' :: '\n' ::
          lbrace :: (mid ++ (rbrace :: '\n' :: fenceLit)))
        = some (lbrace :: (mid ++ [rbrace])) := by
      calc scanFor fenceJsonLit fenceTail
            (btick :: btick :: btick :: 'j' :: 's' :: 'o' :: 'n' :: '\n' ::
              lbrace :: (mid ++ (rbrace :: '\n' :: fenceLit)))
          = (match tryCloseBrace [lbrace] (mid ++ (rbrace :: '\n' :: fenceLit)) with
             | some g => some g
             | none => scanFor fenceJsonLit fenceTail
                 (btick :: btick :: 'j' :: 's' :: 'o' :: 'n' :: '\n' ::
                   lbrace :: (mid ++ (rbrace :: '\n' :: fenceLit)))) := rfl
        _ = some (lbrace :: (mid ++ [rbrace])) := by rw [htcb]; rfl
    rw [hscan]

/-- The JSON object of the C9 counterexample: its single string value holds a
closing brace directly followed by a fence. -/
def trickyJson : Str :=
  [lbrace, dquote, 'a', dquote, ':', ' ', dquote, rbrace, btick, btick, btick, dquote, rbrace]

/-- C9 counterexample: `trickyJson` is a valid JSON object, and
`generate_implementation` parses it when it arrives bare — but wrapped in a
`json` fenced block, the lazy extraction regex stops at the closing brace
inside the string value, hands the truncated text to the JSON parser, and the
result degrades to the raw-response fallback: wrapped and unwrapped replies
do not yield the same ChangeProposal. -/
theorem c9_counterexample :
    parseJson trickyJson
      = some (Json.obj [(['a'], Json.str [rbrace, btick, btick, btick])]) ∧
    genResult trickyJson
      = .parsed (Json.obj [(['a'], Json.str [rbrace, btick, btick, btick])]) ∧
    genResult (wrapFence trickyJson)
      = .fallback [lbrace, dquote, 'a', dquote, ':', ' ', dquote, rbrace] ∧
    genResult (wrapFence trickyJson) ≠ genResult trickyJson := by
  refine ⟨rfl, rfl, rfl, ?_⟩
  rw [show genResult (wrapFence trickyJson)
      = .fallback [lbrace, dquote, 'a', dquote, ':', ' ', dquote, rbrace] from rfl]
  rw [show genResult trickyJson
      = .parsed (Json.obj [(['a'], Json.str [rbrace, btick, btick, btick])]) from rfl]
  intro h
  exact GenResult.noConfusion h

/-- C9 amended: for every valid JSON object text containing no backtick
character, `generate_implementation` on the reply wrapped in a `json` fenced
code block yields the same parse outcome as on the bare reply (the extraction
regex recovers the object text exactly; without the backtick proviso the
equivalence fails, see the counterexample). -/
theorem c9_fenced_equivalence (T : Str) (hne : T ≠ [])
    (hjson : ∃ fs, parseJson T = some (Json.obj fs))
    (hh : T.head? = some lbrace) (hl : T.getLast? = some rbrace)
    (hbt : ∀ c ∈ T, c ≠ btick) :
    genResult (wrapFence T) = genResult T := by
  unfold genResult
  rw [extractResponse_wrap T hne hh hl hbt, extractResponse_id_of_no_btick T hbt]

/-- Witness for C9's amended equivalence at the empty JSON object. -/
theorem c9_fenced_equivalence_witness :
    genResult (wrapFence [lbrace, rbrace]) = genResult [lbrace, rbrace] :=
  c9_fenced_equivalence [lbrace, rbrace] (by decide) ⟨[], rfl⟩ rfl rfl (by decide)

end AcornAgent
